import Mathlib

/-!
Shallow embedding of the Romish backend matchmaking core: the queue model
(queue.model.js), the match model (match.model.js inside
src/middleware/auth.middleware.js), the ready-session service
(src/utils/discordApi.js), the match accept controller (processAcceptTimeout)
and the match controller (pickPlayer / banMap / completeMatch HTTP handlers).
Mongoose documents are modelled as plain structures, document saves as pure
state transformations, thrown JS errors as Except values, and Date values as
Nat epoch milliseconds.  Functions keep the source names and control flow.
-/

set_option maxHeartbeats 1000000

/-- A match side, the JS strings 'alpha' / 'beta'. -/
inductive Side where
  | alpha
  | beta
deriving DecidableEq, Repr

/-- The single-ban alternation used by banMap:
currentVeto === 'alpha' ? 'beta' : 'alpha'. -/
def Side.flip : Side → Side
  | .alpha => .beta
  | .beta => .alpha

/-- A player's team field, the JS strings 'alpha' / 'beta' / 'undrafted'
(none stands for 'undrafted'). -/
abbrev Team := Option Side

/-- Match phase enum of the match schema. -/
inductive Phase where
  | accept
  | draft
  | veto
  | ready
  | live
  | complete
  | cancelled
deriving DecidableEq, Repr

/-- Queue status enum of the queue schema. -/
inductive QStatus where
  | waiting
  | acceptPhaseStatus
  | full
  | processing
  | completed
deriving DecidableEq, Repr

/-- Player payload handed to queue.addPlayer and Match.createMatch:
steamId, name, avatar. -/
structure PInfo where
  steamId : String
  name : String
  avatar : String
deriving DecidableEq, Repr

/-- Queue entry subdocument: steamId, name, avatar, position, hasPriority
(joinedAt dropped: no modelled operation reads it). -/
structure QEntry where
  steamId : String
  name : String
  avatar : String
  position : Nat
  hasPriority : Bool
deriving DecidableEq, Repr

/-- Embedded accept phase of the queue document (timestamps dropped). -/
structure QAcceptPhase where
  active : Bool
  acceptedPlayers : List String
  declinedPlayers : List String
deriving DecidableEq, Repr

/-- The queue (pool) document. -/
structure QueueDoc where
  players : List QEntry
  status : QStatus
  requiredPlayers : Nat
  acceptPhase : QAcceptPhase
deriving DecidableEq, Repr

/-- A queue as created by Queue.getActiveQueue when none is active:
players [], status waiting, schema defaults elsewhere. -/
def freshQueue : QueueDoc :=
  { players := []
    status := .waiting
    requiredPlayers := 10
    acceptPhase := { active := false, acceptedPlayers := [], declinedPlayers := [] } }

/-- queueSchema.methods.addPlayer: throws if the steamId is already present or
the queue is full, else appends the player with position length+1 and flips
status to full when capacity is reached. -/
def QueueDoc.addPlayer (q : QueueDoc) (player : PInfo) : Except String QueueDoc :=
  if q.players.any (fun p => p.steamId = player.steamId) then
    .error "Player already in queue"
  else if q.requiredPlayers ≤ q.players.length then
    .error "Queue is full"
  else
    let players := q.players ++
      [{ steamId := player.steamId, name := player.name, avatar := player.avatar
         position := q.players.length + 1, hasPriority := false }]
    .ok { q with
      players := players
      status := if players.length = q.requiredPlayers then .full else q.status }

/-- Position recomputation used by removePlayer, processAcceptPhaseResults and
the ready-timeout rebuild: players.forEach((player, index) => position = index+1),
carrying the running index. -/
def reindexFrom (k : Nat) : List QEntry → List QEntry
  | [] => []
  | p :: rest => { p with position := k + 1 } :: reindexFrom (k + 1) rest

/-- players.forEach((player, index) => position = index + 1). -/
def reindex (players : List QEntry) : List QEntry := reindexFrom 0 players

/-- queueSchema.methods.removePlayer: filters the steamId out, throws if
nothing was removed, recomputes positions, drops status back to waiting when
below capacity. -/
def QueueDoc.removePlayer (q : QueueDoc) (steamId : String) : Except String QueueDoc :=
  if (q.players.filter (fun p => p.steamId ≠ steamId)).length = q.players.length then
    .error "Player not found in queue"
  else
    .ok { q with
      players := reindex (q.players.filter (fun p => p.steamId ≠ steamId))
      status :=
        if (q.players.filter (fun p => p.steamId ≠ steamId)).length < q.requiredPlayers then
          .waiting
        else q.status }

/-- queueSchema.methods.processAcceptPhaseResults, queue part: keeps accepted
players (marking them hasPriority), drops everyone else, recomputes positions,
resets the accept phase and recomputes status.  Also returns the removed
steamIds (the ids whose users get inQueue cleared). -/
def QueueDoc.processAcceptPhaseResults (q : QueueDoc) : QueueDoc × List String :=
  let acceptedSteamIds := q.acceptPhase.acceptedPlayers
  let kept := q.players.filter (fun p => p.steamId ∈ acceptedSteamIds)
  let keptPrio := kept.map (fun p => { p with hasPriority := true })
  let removed := (q.players.filter (fun p => p.steamId ∉ acceptedSteamIds)).map
    (fun p => p.steamId)
  ({ q with
      players := reindex keptPrio
      acceptPhase := { active := false, acceptedPlayers := [], declinedPlayers := [] }
      status := if q.requiredPlayers ≤ keptPrio.length then .full else .waiting },
   removed)

/-- Queue rebuild in the ready-timeout handler of startReadyPhaseMatch
(src/utils/discordApi.js): accepted session players keep their original queue
order and get hasPriority true, non-session players follow, non-acceptors are
dropped, positions are recomputed and the accept phase fields reset. -/
def rebuildQueueOnTimeout (q : QueueDoc) (acceptors nonAcceptors : List String) :
    QueueDoc × List String :=
  let sessionPlayerIds := acceptors ++ nonAcceptors
  let acceptedPlayersInQueue :=
    (q.players.filter
      (fun p => p.steamId ∈ sessionPlayerIds ∧ p.steamId ∈ acceptors)).map
      (fun p => { p with hasPriority := true })
  let nonSessionPlayers := q.players.filter (fun p => p.steamId ∉ sessionPlayerIds)
  let newPlayers := acceptedPlayersInQueue ++ nonSessionPlayers
  let removedSteamIds := sessionPlayerIds.filter (fun id => id ∉ acceptors)
  ({ q with
      players := reindex newPlayers
      acceptPhase := { active := false, acceptedPlayers := [], declinedPlayers := [] }
      status := if q.requiredPlayers ≤ newPlayers.length then .full else .waiting },
   removedSteamIds)

/-- A match player subdocument: snapshot fields plus the team assignment. -/
structure MatchPlayer where
  steamId : String
  name : String
  avatar : String
  team : Team
deriving DecidableEq, Repr

/-- pickHistory entry (pickedAt timestamp dropped). -/
structure PickEntry where
  captain : Side
  steamId : String
deriving DecidableEq, Repr

/-- bannedMaps entry (bannedAt timestamp dropped). -/
structure BanEntry where
  map : String
  bannedBy : Side
deriving DecidableEq, Repr

/-- The teams subdocument: two lists of steamIds. -/
structure TeamsRec where
  alpha : List String
  beta : List String
deriving DecidableEq, Repr

/-- teams[side] indexing. -/
def TeamsRec.side : TeamsRec → Side → List String
  | t, .alpha => t.alpha
  | t, .beta => t.beta

/-- teams[side].push(steamId). -/
def TeamsRec.push (t : TeamsRec) (s : Side) (id : String) : TeamsRec :=
  match s with
  | .alpha => { t with alpha := t.alpha ++ [id] }
  | .beta => { t with beta := t.beta ++ [id] }

/-- acceptPhase.requiredPlayers entry of the match document. -/
structure RequiredPlayer where
  steamId : String
  name : String
deriving DecidableEq, Repr

/-- The match document's embedded accept phase.  acceptedPlayers keeps only
the steamIds (the stored acceptedAt dates are never read by the modelled
code paths); expiresAt is epoch milliseconds. -/
structure MAcceptPhase where
  active : Bool
  expiresAt : Nat
  acceptedPlayers : List String
  requiredPlayers : List RequiredPlayer
deriving DecidableEq, Repr

/-- Server connection info as assigned by the ban-map controller on
provisioning success. -/
structure ServerInfo where
  ip : String
  port : Nat
  password : String
  serverId : String
  connectString : String
deriving DecidableEq, Repr

/-- The winner argument accepted by the complete-match controller:
'alpha', 'beta' or 'tie'. -/
inductive WinnerChoice where
  | alpha
  | beta
  | tie
deriving DecidableEq, Repr

/-- The match result subdocument. -/
structure MatchResult where
  winner : Option WinnerChoice
  scoreAlpha : Nat
  scoreBeta : Nat
deriving DecidableEq, Repr

/-- The match document (schema fields read by the modelled methods;
timestamps dropped). -/
structure MatchDoc where
  matchId : String
  players : List MatchPlayer
  captainAlpha : String
  captainBeta : String
  teams : TeamsRec
  phase : Phase
  acceptPhase : MAcceptPhase
  pickOrder : List Side
  currentPicker : Side
  pickIndex : Nat
  pickHistory : List PickEntry
  availableMaps : List String
  bannedMaps : List BanEntry
  selectedMap : Option String
  vetoOrder : List Side
  currentVeto : Side
  vetoIndex : Nat
  serverInfo : Option ServerInfo
  result : MatchResult
deriving DecidableEq, Repr

/-- The veto order generation loop: i % 2 === 0 ? 'alpha' : 'beta' for
totalBans entries. -/
def genAlt (n : Nat) : List Side :=
  (List.range n).map (fun i => if i % 2 = 0 then .alpha else .beta)

/-- matchSchema.methods.generatePickOrder: the fixed eight-entry sequence,
currentPicker alpha, pickIndex 0. -/
def MatchDoc.generatePickOrder (m : MatchDoc) : MatchDoc :=
  { m with
    pickOrder := [.alpha, .alpha, .beta, .beta, .alpha, .beta, .alpha, .beta]
    currentPicker := .alpha
    pickIndex := 0 }

/-- matchSchema.methods.generateVetoOrder: availableMaps.length - 1
alternating bans starting with alpha. -/
def MatchDoc.generateVetoOrder (m : MatchDoc) : MatchDoc :=
  { m with
    vetoOrder := genAlt (m.availableMaps.length - 1)
    currentVeto := .alpha
    vetoIndex := 0 }

/-- The twelve-map pool set by Match.createMatch (and the schema default). -/
def defaultMapPool : List String :=
  ["Dust II", "Mirage", "Inferno", "Nuke", "Overpass", "Vertigo", "Ancient",
   "Cache", "Cobblestone", "Anubis", "Train", "Aztec"]

/-- The find predicate of pickPlayer:
p.steamId === steamId && p.team === 'undrafted'. -/
def pickTarget (steamId : String) (p : MatchPlayer) : Bool :=
  decide (p.steamId = steamId ∧ p.team = none)

/-- The find predicate of the remainder assignment: p.team === 'undrafted'. -/
def isUndrafted (p : MatchPlayer) : Bool :=
  decide (p.team = none)

/-- The JS assignment player.team = side on the first player matching the
predicate (the find result is a live reference into the array). -/
def setTeamFirst (pred : MatchPlayer → Bool) (t : Side) :
    List MatchPlayer → List MatchPlayer
  | [] => []
  | p :: rest =>
      if pred p then { p with team := some t } :: rest
      else p :: setTeamFirst pred t rest

/-- matchSchema.statics.createMatch: captains pre-assigned to alpha/beta,
teams seeded with the captains, phase accept with a 60s accept window, the
twelve-map pool, then generatePickOrder.  matchId is the generated
MATCH-nanoid value, passed in here; c1/c2 are captains[0]/captains[1];
now is Date.now() in milliseconds. -/
def Match.createMatch (matchId : String) (ps : List PInfo) (c1 c2 : String)
    (now : Nat) : MatchDoc :=
  MatchDoc.generatePickOrder
    { matchId := matchId
      players := ps.map (fun p =>
        { steamId := p.steamId, name := p.name, avatar := p.avatar
          team :=
            if p.steamId = c1 ∨ p.steamId = c2 then
              (if p.steamId = c1 then some .alpha else some .beta)
            else none })
      captainAlpha := c1
      captainBeta := c2
      teams := { alpha := [c1], beta := [c2] }
      phase := .accept
      acceptPhase :=
        { active := true
          expiresAt := now + 60000
          acceptedPlayers := []
          requiredPlayers := ps.map (fun p => { steamId := p.steamId, name := p.name }) }
      pickOrder := []
      currentPicker := .alpha
      pickIndex := 0
      pickHistory := []
      availableMaps := defaultMapPool
      bannedMaps := []
      selectedMap := none
      vetoOrder := []
      currentVeto := .alpha
      vetoIndex := 0
      serverInfo := none
      result := { winner := none, scoreAlpha := 0, scoreBeta := 0 } }

/-- matchSchema.methods.pickPlayer.  Error strings keep the JS text with
punctuation elided.  On pick-order exhaustion a remaining undrafted player
goes to the smaller team and the veto order is generated inline. -/
def MatchDoc.pickPlayer (m : MatchDoc) (steamId : String) (captain : Side) :
    Except String MatchDoc :=
  if m.currentPicker ≠ captain then
    .error "Not this captains turn"
  else
    match m.players.find? (pickTarget steamId) with
    | none => .error "Player not found or already drafted"
    | some _ =>
        let teams := m.teams.push captain steamId
        let players := setTeamFirst (pickTarget steamId) captain m.players
        let pickHistory := m.pickHistory ++ [{ captain := captain, steamId := steamId }]
        if h : m.pickIndex + 1 < m.pickOrder.length then
          .ok { m with
            teams := teams, players := players, pickHistory := pickHistory
            pickIndex := m.pickIndex + 1
            currentPicker := m.pickOrder.get ⟨m.pickIndex + 1, h⟩ }
        else
          match players.find? isUndrafted with
          | some lastPlayer =>
              .ok { m with
                teams := teams.push
                  (if teams.alpha.length < teams.beta.length then .alpha else .beta)
                  lastPlayer.steamId
                players := setTeamFirst isUndrafted
                  (if teams.alpha.length < teams.beta.length then .alpha else .beta)
                  players
                pickHistory := pickHistory
                pickIndex := m.pickIndex + 1
                phase := .veto
                vetoOrder := genAlt (m.availableMaps.length - 1)
                currentVeto := .alpha
                vetoIndex := 0 }
          | none =>
              .ok { m with
                teams := teams, players := players, pickHistory := pickHistory
                pickIndex := m.pickIndex + 1
                phase := .veto
                vetoOrder := genAlt (m.availableMaps.length - 1)
                currentVeto := .alpha
                vetoIndex := 0 }

/-- matchSchema.methods.banMap: turn check, availability check, removal,
ban record; when one map remains it becomes selectedMap and the phase turns
ready, otherwise the turn flips and vetoIndex advances. -/
def MatchDoc.banMap (m : MatchDoc) (mapName : String) (captain : Side) :
    Except String MatchDoc :=
  if m.currentVeto ≠ captain then
    .error "Not this captains turn"
  else if mapName ∈ m.availableMaps then
    if (m.availableMaps.filter (fun x => x ≠ mapName)).length = 1 then
      .ok { m with
        availableMaps := m.availableMaps.filter (fun x => x ≠ mapName)
        bannedMaps := m.bannedMaps ++ [{ map := mapName, bannedBy := captain }]
        selectedMap := (m.availableMaps.filter (fun x => x ≠ mapName)).head?
        phase := .ready }
    else
      .ok { m with
        availableMaps := m.availableMaps.filter (fun x => x ≠ mapName)
        bannedMaps := m.bannedMaps ++ [{ map := mapName, bannedBy := captain }]
        vetoIndex := m.vetoIndex + 1
        currentVeto := m.currentVeto.flip }
  else
    .error "Map not available or already banned"

/-- matchSchema.methods.acceptMatch: active check, expiry check
(new Date() > expiresAt), roster check, duplicate check, then the accept is
appended. -/
def MatchDoc.acceptMatch (m : MatchDoc) (steamId : String) (now : Nat) :
    Except String MatchDoc :=
  if m.acceptPhase.active = false then
    .error "Accept phase is not active"
  else if m.acceptPhase.expiresAt < now then
    .error "Accept phase has expired"
  else if ¬ m.acceptPhase.requiredPlayers.any (fun p => p.steamId = steamId) then
    .error "Player is not part of this match"
  else if m.acceptPhase.acceptedPlayers.any (fun p => p = steamId) then
    .error "Player already accepted"
  else
    .ok { m with
      acceptPhase := { m.acceptPhase with
        acceptedPlayers := m.acceptPhase.acceptedPlayers ++ [steamId] } }

/-- matchSchema.methods.allPlayersAccepted:
acceptedPlayers.length >= requiredPlayers.length. -/
def MatchDoc.allPlayersAccepted (m : MatchDoc) : Bool :=
  m.acceptPhase.requiredPlayers.length ≤ m.acceptPhase.acceptedPlayers.length

/-- matchSchema.methods.endAcceptPhase: deactivates the accept phase, then
moves to draft when everyone accepted and to cancelled otherwise. -/
def MatchDoc.endAcceptPhase (m : MatchDoc) : MatchDoc :=
  { m with
    acceptPhase := { m.acceptPhase with active := false }
    phase := if m.allPlayersAccepted then .draft else .cancelled }

/-- matchSchema.methods.completeMatch: records the result, marks the match
complete and returns this.save().  The schema enum for result.winner is
[alpha, beta, draw, null] and does not include tie, so a save with winner
tie fails mongoose enum validation: the returned promise rejects and the
document is not persisted (the stat fan-out lives in the HTTP
controller). -/
def MatchDoc.completeMatchDoc (m : MatchDoc) (winner : WinnerChoice)
    (scoreAlpha scoreBeta : Nat) : Except String MatchDoc :=
  match winner with
  | .tie =>
      .error "Match validation failed: result.winner is not a valid enum value"
  | .alpha =>
      .ok { m with
        phase := .complete
        result := { winner := some .alpha, scoreAlpha := scoreAlpha
                    scoreBeta := scoreBeta } }
  | .beta =>
      .ok { m with
        phase := .complete
        result := { winner := some .beta, scoreAlpha := scoreAlpha
                    scoreBeta := scoreBeta } }

/-- matchSchema.methods.cancelMatch. -/
def MatchDoc.cancelMatch (m : MatchDoc) : MatchDoc :=
  { m with phase := .cancelled }

/-- One queue operation, for quantifying over operation sequences. -/
inductive QueueOp where
  | add (player : PInfo)
  | remove (steamId : String)
  | processResults
  | timeoutRebuild (acceptors nonAcceptors : List String)
deriving Repr

/-- Apply one operation; a thrown precondition error leaves the queue as it
was (the JS methods throw before any mutation). -/
def QueueDoc.applyOp (q : QueueDoc) : QueueOp → QueueDoc
  | .add player => (q.addPlayer player).toOption.getD q
  | .remove steamId => (q.removePlayer steamId).toOption.getD q
  | .processResults => q.processAcceptPhaseResults.1
  | .timeoutRebuild acceptors nonAcceptors =>
      (rebuildQueueOnTimeout q acceptors nonAcceptors).1

/-- Apply a sequence of queue operations in order. -/
def QueueDoc.applyOps (q : QueueDoc) (ops : List QueueOp) : QueueDoc :=
  ops.foldl QueueDoc.applyOp q

/-- The spec's position invariant: entries hold the contiguous positions
1..n in array order. -/
def positionsOK (players : List QEntry) : Prop :=
  ∀ i (h : i < players.length), (players.get ⟨i, h⟩).position = i + 1

/-- Result discriminator for thrown-vs-returned method calls. -/
def exceptIsError {ε α : Type} : Except ε α → Bool
  | .error _ => true
  | .ok _ => false

/-- States reachable from a given match document through the match model's
own mutating methods. -/
inductive ReachableFrom (m0 : MatchDoc) : MatchDoc → Prop where
  | refl : ReachableFrom m0 m0
  | pickStep (m m' : MatchDoc) (s : String) (c : Side) :
      ReachableFrom m0 m → m.pickPlayer s c = .ok m' → ReachableFrom m0 m'
  | banStep (m m' : MatchDoc) (mapName : String) (c : Side) :
      ReachableFrom m0 m → m.banMap mapName c = .ok m' → ReachableFrom m0 m'
  | acceptStep (m m' : MatchDoc) (s : String) (now : Nat) :
      ReachableFrom m0 m → m.acceptMatch s now = .ok m' → ReachableFrom m0 m'
  | endAcceptStep (m : MatchDoc) :
      ReachableFrom m0 m → ReachableFrom m0 m.endAcceptPhase
  | genPickStep (m : MatchDoc) :
      ReachableFrom m0 m → ReachableFrom m0 m.generatePickOrder
  | genVetoStep (m : MatchDoc) :
      ReachableFrom m0 m → ReachableFrom m0 m.generateVetoOrder
  | completeStep (m m' : MatchDoc) (w : WinnerChoice) (a b : Nat) :
      ReachableFrom m0 m → m.completeMatchDoc w a b = .ok m' → ReachableFrom m0 m' 
  | cancelStep (m : MatchDoc) :
      ReachableFrom m0 m → ReachableFrom m0 m.cancelMatch

/-- Both captains hold a team assignment (never 'undrafted'). -/
def captainsAssigned (c1 c2 : String) (m : MatchDoc) : Prop :=
  ∀ p ∈ m.players, (p.steamId = c1 ∨ p.steamId = c2) → p.team ≠ none

/-- The sides recorded by a run of successful bans: the acting side starts at
s and flips after every non-final ban. -/
def banRecords (bans : List String) (s : Side) : List BanEntry :=
  match bans with
  | [] => []
  | b :: bs => { map := b, bannedBy := s } :: banRecords bs s.flip

/-- A sequence of banMap calls, each made by the side whose turn it is. -/
def runBans (m : MatchDoc) : List String → Except String MatchDoc
  | [] => .ok m
  | b :: bs =>
      match m.banMap b m.currentVeto with
      | .ok m1 => runBans m1 bs
      | .error e => .error e

/-- A concrete match sitting in the veto phase with a three-map pool. -/
def mVetoEx : MatchDoc :=
  { matchId := "M", players := [], captainAlpha := "a", captainBeta := "b"
    teams := { alpha := ["a"], beta := ["b"] }, phase := .veto
    acceptPhase := { active := false, expiresAt := 0, acceptedPlayers := [], requiredPlayers := [] }
    pickOrder := [], currentPicker := .alpha, pickIndex := 0, pickHistory := []
    availableMaps := ["Dust II", "Mirage", "Inferno"], bannedMaps := [], selectedMap := none
    vetoOrder := genAlt 2, currentVeto := .alpha, vetoIndex := 0
    serverInfo := none, result := { winner := none, scoreAlpha := 0, scoreBeta := 0 } }

/-- A ready-session roster entry (acceptedAt timestamp dropped). -/
structure RSPlayer where
  userId : String
  accepted : Bool
deriving DecidableEq, Repr

/-- ReadySession status enum. -/
inductive RSStatus where
  | active
  | completed
  | timeout
  | cancelled
deriving DecidableEq, Repr

/-- The ReadySession document (readySession.model.js); expiresAt is epoch
milliseconds. -/
structure ReadySessionDoc where
  matchId : String
  queueGroupId : Option String
  players : List RSPlayer
  expiresAt : Nat
  status : RSStatus
deriving DecidableEq, Repr

/-- The stats object getSessionStats builds (time-derived fields dropped). -/
structure SessionStats where
  acceptedCount : Nat
  totalPlayers : Nat
deriving DecidableEq, Repr

/-- getSessionStats (src/utils/discordApi.js). -/
def getSessionStats (s : ReadySessionDoc) : SessionStats :=
  { acceptedCount := (s.players.filter (fun p => p.accepted)).length
    totalPlayers := s.players.length }

/-- ReadySession.findOne({ matchId, status: 'active' }) over a stored list of
sessions: the first session matching both. -/
def findSession : List ReadySessionDoc → String → Option ReadySessionDoc
  | [], _ => none
  | s :: rest, matchId =>
      if s.matchId = matchId ∧ s.status = .active then some s
      else findSession rest matchId

/-- session.save() after findOne: writes the mutated document back over the
first active session with this matchId. -/
def replaceFirstActive (matchId : String) (updated : ReadySessionDoc) :
    List ReadySessionDoc → List ReadySessionDoc
  | [] => []
  | s :: rest =>
      if s.matchId = matchId ∧ s.status = .active then updated :: rest
      else s :: replaceFirstActive matchId updated rest

/-- session.players[playerIndex].accepted = true on the first roster entry
with this userId (findIndex returns the first match). -/
def setAcceptedFirst (userId : String) : List RSPlayer → List RSPlayer
  | [] => []
  | p :: rest =>
      if p.userId = userId then { p with accepted := true } :: rest
      else p :: setAcceptedFirst userId rest

/-- recordPlayerAccept (src/utils/discordApi.js): no active session is an
error, a non-participant is an error, a duplicate accept returns the current
stats without failing, and a fresh accept flips the entry and saves.  The
function takes no clock: recordPlayerAccept never checks expiresAt. -/
def recordPlayerAccept (store : List ReadySessionDoc) (matchId userId : String) :
    List ReadySessionDoc × Except String SessionStats :=
  match findSession store matchId with
  | none => (store, .error "Session not found or expired")
  | some session =>
      match session.players.find? (fun p => p.userId = userId) with
      | none => (store, .error "User not in session")
      | some p =>
          if p.accepted then
            (store, .ok (getSessionStats session))
          else
            (replaceFirstActive matchId
              { session with players := setAcceptedFirst userId session.players } store,
             .ok (getSessionStats
              { session with players := setAcceptedFirst userId session.players }))

/-- The payload handleReadyTimeout returns to the timeout callback. -/
structure TimeoutResult where
  matchId : String
  queueGroupId : Option String
  nonAcceptors : List String
  acceptors : List String
deriving DecidableEq, Repr

/-- handleReadyTimeout (src/utils/discordApi.js):
findOneAndUpdate({ matchId, status: 'active' }, { status: 'timeout' }); when
no active session matches it returns null and changes nothing, otherwise it
marks the session timeout and partitions the roster. -/
def handleReadyTimeout (store : List ReadySessionDoc) (matchId : String) :
    List ReadySessionDoc × Option TimeoutResult :=
  match findSession store matchId with
  | none => (store, none)
  | some s =>
      (replaceFirstActive matchId { s with status := .timeout } store,
       some { matchId := matchId
              queueGroupId := s.queueGroupId
              nonAcceptors := (s.players.filter (fun p => !p.accepted)).map RSPlayer.userId
              acceptors := (s.players.filter (fun p => p.accepted)).map RSPlayer.userId })

/-- queueSchema.methods.acceptMatch: queue-membership check, active check,
duplicate-accept and duplicate-decline checks, then the accept is recorded.
No expiresAt check exists on this path. -/
def QueueDoc.acceptMatch (q : QueueDoc) (steamId : String) : Except String QueueDoc :=
  if ¬ q.players.any (fun p => p.steamId = steamId) then
    .error "Player not in queue"
  else if q.acceptPhase.active = false then
    .error "Accept phase is not active"
  else if steamId ∈ q.acceptPhase.acceptedPlayers then
    .error "Player already accepted"
  else if steamId ∈ q.acceptPhase.declinedPlayers then
    .error "Player already declined"
  else
    .ok { q with
      acceptPhase := { q.acceptPhase with
        acceptedPlayers := q.acceptPhase.acceptedPlayers ++ [steamId] } }

/-- The user document fields the modelled flows touch. -/
structure UserDoc where
  steamId : String
  name : String
  inQueue : Bool
  currentMatch : Option String
  wins : Nat
  losses : Nat
  rating : Nat
  matchesPlayed : Nat
deriving DecidableEq, Repr

/-- userSchema.methods.updateStats: matchesPlayed always increments; a win
adds a win and +25 rating, a loss adds a loss and subtracts 25 clamped at 0
(Math.max(0, rating - 25), which is Nat subtraction). -/
def UserDoc.updateStats (u : UserDoc) (won : Bool) : UserDoc :=
  if won then
    { u with matchesPlayed := u.matchesPlayed + 1, wins := u.wins + 1
             rating := u.rating + 25 }
  else
    { u with matchesPlayed := u.matchesPlayed + 1, losses := u.losses + 1
             rating := u.rating - 25 }

/-- The re-queue loop of processAcceptTimeout: each acceptor not already in
the queue is appended through queue.addPlayer (whose second argument in the
JS call is ignored: addPlayer takes one parameter) and the user flags
updated; a thrown addPlayer error propagates to the outer catch, aborting
the rest of the loop while keeping earlier mutations. -/
def addAcceptorsLoop (q : QueueDoc) (users : List UserDoc) :
    List RequiredPlayer → QueueDoc × List UserDoc
  | [] => (q, users)
  | a :: rest =>
      if q.players.any (fun p => p.steamId = a.steamId) then
        addAcceptorsLoop q users rest
      else
        match q.addPlayer { steamId := a.steamId, name := a.name, avatar := "" } with
        | .ok q1 =>
            addAcceptorsLoop q1
              (users.map (fun u =>
                if u.steamId = a.steamId then
                  { u with inQueue := true, currentMatch := none }
                else u)) rest
        | .error _ => (q, users)

/-- processAcceptTimeout (match accept controller): no-op when the match is
missing or the accept phase already ended; all-accepted goes to draft via
endAcceptPhase; otherwise the match is cancelled, every required player's
currentMatch is cleared, and acceptors are re-added to the active queue
through addPlayer. -/
def processAcceptTimeout (mOpt : Option MatchDoc) (activeQueue : QueueDoc)
    (users : List UserDoc) : Option MatchDoc × QueueDoc × List UserDoc :=
  match mOpt with
  | none => (none, activeQueue, users)
  | some m =>
      if m.acceptPhase.active = false then (some m, activeQueue, users)
      else if m.allPlayersAccepted then (some m.endAcceptPhase, activeQueue, users)
      else
        let acceptors := m.acceptPhase.requiredPlayers.filter
          (fun p => p.steamId ∈ m.acceptPhase.acceptedPlayers)
        let users1 := users.map (fun u =>
          if m.acceptPhase.requiredPlayers.any (fun p => p.steamId = u.steamId) then
            { u with currentMatch := none }
          else u)
        let qu := addAcceptorsLoop activeQueue users1 acceptors
        (some m.endAcceptPhase, qu.1, qu.2)

/-- Queue part of the ready-timeout callback in startReadyPhaseMatch,
paired with User.updateMany({steamId: removed}, {inQueue: false}):
acceptors first with priority, then non-session players, non-acceptors
dropped and flagged out of the queue. -/
def readyTimeoutQueueRebuild (q : QueueDoc) (acceptors nonAcceptors : List String)
    (users : List UserDoc) : QueueDoc × List UserDoc :=
  let r := rebuildQueueOnTimeout q acceptors nonAcceptors
  (r.1, users.map (fun u => if u.steamId ∈ r.2 then { u with inQueue := false } else u))

/-- JS property access p.steamId on an element of match.teams.alpha/beta in
the complete-match controller: the teams arrays hold plain steamId strings
and a string has no steamId property, so the access yields undefined
(modelled as none). -/
def jsPropSteamId (p : String) : Option String := none

/-- User.updateMany({ steamId: { $in: ids } }, f) where ids came from
mapping jsPropSteamId: an undefined entry matches no stored steamId
string. -/
def updateManyBySteamIdIn (ids : List (Option String)) (f : UserDoc → UserDoc)
    (users : List UserDoc) : List UserDoc :=
  users.map (fun u => if (some u.steamId) ∈ ids then f u else u)

/-- User.findOne({ steamId: q }) followed by an update of the found user:
mongoose strips undefined-valued filter keys, so findOne({steamId: undefined})
is findOne({}) and returns the first document in the collection. -/
def findOneUpdateBySteamId (q : Option String) (f : UserDoc → UserDoc) :
    List UserDoc → List UserDoc
  | [] => []
  | u :: rest =>
      match q with
      | some s =>
          if u.steamId = s then f u :: rest
          else u :: findOneUpdateBySteamId (some s) f rest
      | none => f u :: rest

/-- The per-player loop of the complete-match controller: for each element p
of a team array, findOne({steamId: p.steamId}) and updateStats. -/
def applyTeamStatLoop (teamIds : List String) (won : Bool)
    (users : List UserDoc) : List UserDoc :=
  teamIds.foldl
    (fun us p => findOneUpdateBySteamId (jsPropSteamId p)
      (fun u => u.updateStats won) us) users

/-- The complete-match HTTP controller: await match.completeMatch(...)
inside the controller try block, then the stat fan-out.  When the save
rejects (winner tie fails the result.winner enum validation) the catch
answers 500 and no user update runs.  On a saved alpha/beta result,
winnerTeam/loserTeam are match.teams[...] (lists of steamId strings) and
the updateMany filters map p.steamId over them; the tie fan-out branch
below mirrors the source text but is unreachable, because a tie never
survives the save. -/
def completeMatchController (m : MatchDoc) (winner : WinnerChoice)
    (scoreAlpha scoreBeta : Nat) (users : List UserDoc) :
    Except String (MatchDoc × List UserDoc) :=
  match m.completeMatchDoc winner scoreAlpha scoreBeta with
  | .error e => .error e
  | .ok m1 =>
      match winner with
      | .tie =>
          .ok (m1, users.map (fun u =>
            if m1.players.any (fun p => p.steamId = u.steamId) then
              { u with currentMatch := none, matchesPlayed := u.matchesPlayed + 1 }
            else u))
      | _ =>
          let winnerTeam := if winner = .alpha then m1.teams.alpha else m1.teams.beta
          let loserTeam := if winner = .alpha then m1.teams.beta else m1.teams.alpha
          let users1 := updateManyBySteamIdIn (winnerTeam.map jsPropSteamId)
            (fun u => { u with currentMatch := none
                               matchesPlayed := u.matchesPlayed + 1 })
            users
          let users2 := applyTeamStatLoop winnerTeam true users1
          let users3 := updateManyBySteamIdIn (loserTeam.map jsPropSteamId)
            (fun u => { u with currentMatch := none
                               matchesPlayed := u.matchesPlayed + 1 })
            users2
          let users4 := applyTeamStatLoop loserTeam false users3
          .ok (m1, users4)

/-- The three ways the provisionServer promise can resolve in the ban-map
controller: fulfilled with success, fulfilled with failure, or rejected. -/
inductive ProvisionOutcome where
  | success (info : ServerInfo)
  | failure (err : String)
  | thrown (err : String)
deriving DecidableEq, Repr

/-- The provisioning continuation of the ban-map controller: on success the
server info is stored and the phase set live; on failure or a thrown error
the phase is still set live with serverInfo untouched. -/
def handleProvisionOutcome (m : MatchDoc) : ProvisionOutcome → MatchDoc
  | .success info => { m with serverInfo := some info, phase := .live }
  | .failure _ => { m with phase := .live }
  | .thrown _ => { m with phase := .live }

/-- A concrete veto-phase match with two maps left, and the result of its
final ban. -/
def mBan2Ex : MatchDoc := { mVetoEx with availableMaps := ["Mirage", "Inferno"] }

/-- The match produced by the final ban on mBan2Ex. -/
def mBanResEx : MatchDoc :=
  { mBan2Ex with
    availableMaps := ["Inferno"]
    bannedMaps := [{ map := "Mirage", bannedBy := .alpha }]
    selectedMap := some "Inferno"
    phase := .ready }

/-- A completed ready session, for the C6 witness. -/
def sessionDoneEx : ReadySessionDoc :=
  { matchId := "PEND-1", queueGroupId := some "Q1"
    players := [{ userId := "u1", accepted := true }, { userId := "u2", accepted := true }]
    expiresAt := 1000, status := .completed }

/-- An accept-phase-finished match, for the C6 witness. -/
def mInactiveEx : MatchDoc :=
  { mVetoEx with
    phase := .draft
    acceptPhase := { active := false, expiresAt := 100
                     acceptedPlayers := ["a", "b"]
                     requiredPlayers := [{ steamId := "a", name := "A" },
                                         { steamId := "b", name := "B" }] } }

/-- A concrete match in its accept window where p1 already accepted:
active, unexpired at now = 5, p1 in the roster and in acceptedPlayers. -/
def mAcceptEx : MatchDoc :=
  { mVetoEx with
    phase := .accept
    acceptPhase := { active := true, expiresAt := 100
                     acceptedPlayers := ["p1"]
                     requiredPlayers := [{ steamId := "p1", name := "P1" },
                                         { steamId := "p2", name := "P2" }] } }

/-- An active ready session where u1 already accepted, for the C3 witness. -/
def sessionLiveEx : ReadySessionDoc :=
  { matchId := "PEND-2", queueGroupId := some "Q1"
    players := [{ userId := "u1", accepted := true }, { userId := "u2", accepted := false }]
    expiresAt := 10, status := .active }

/-- A participant user as the complete-match flow finds them: in the match
M1 with zeroed stats. -/
def mkLiveUser (id nm : String) : UserDoc :=
  { steamId := id, name := nm, inQueue := false, currentMatch := some "M1"
    wins := 0, losses := 0, rating := 0, matchesPlayed := 0 }

/-- A concrete live match between alpha = a1..a5 and beta = b1..b5. -/
def mLiveEx : MatchDoc :=
  { matchId := "M1"
    players :=
      [{ steamId := "a1", name := "A1", avatar := "x", team := some .alpha },
       { steamId := "a2", name := "A2", avatar := "x", team := some .alpha },
       { steamId := "a3", name := "A3", avatar := "x", team := some .alpha },
       { steamId := "a4", name := "A4", avatar := "x", team := some .alpha },
       { steamId := "a5", name := "A5", avatar := "x", team := some .alpha },
       { steamId := "b1", name := "B1", avatar := "x", team := some .beta },
       { steamId := "b2", name := "B2", avatar := "x", team := some .beta },
       { steamId := "b3", name := "B3", avatar := "x", team := some .beta },
       { steamId := "b4", name := "B4", avatar := "x", team := some .beta },
       { steamId := "b5", name := "B5", avatar := "x", team := some .beta }]
    captainAlpha := "a1", captainBeta := "b1"
    teams := { alpha := ["a1", "a2", "a3", "a4", "a5"]
               beta := ["b1", "b2", "b3", "b4", "b5"] }
    phase := .live
    acceptPhase := { active := false, expiresAt := 0, acceptedPlayers := []
                     requiredPlayers := [] }
    pickOrder := [.alpha, .alpha, .beta, .beta, .alpha, .beta, .alpha, .beta]
    currentPicker := .beta, pickIndex := 8, pickHistory := []
    availableMaps := ["Inferno"], bannedMaps := [], selectedMap := some "Inferno"
    vetoOrder := genAlt 11, currentVeto := .beta, vetoIndex := 10
    serverInfo := none
    result := { winner := none, scoreAlpha := 0, scoreBeta := 0 } }

/-- The ten participants, a1 first in the collection. -/
def usersLiveEx : List UserDoc :=
  [mkLiveUser "a1" "A1", mkLiveUser "a2" "A2", mkLiveUser "a3" "A3",
   mkLiveUser "a4" "A4", mkLiveUser "a5" "A5", mkLiveUser "b1" "B1",
   mkLiveUser "b2" "B2", mkLiveUser "b3" "B3", mkLiveUser "b4" "B4",
   mkLiveUser "b5" "B5"]

/-- A cancelled-pending match: two required players a/b, only a accepted. -/
def mTimeoutEx : MatchDoc :=
  { mVetoEx with
    phase := .accept
    acceptPhase := { active := true, expiresAt := 100
                     acceptedPlayers := ["a"]
                     requiredPlayers := [{ steamId := "a", name := "A" },
                                         { steamId := "b", name := "B" }] } }

/-- A queue already holding a non-priority player z at position 1. -/
def qTimeoutEx : QueueDoc :=
  { players := [{ steamId := "z", name := "Z", avatar := "x"
                  position := 1, hasPriority := false }]
    status := .waiting
    requiredPlayers := 10
    acceptPhase := { active := false, acceptedPlayers := [], declinedPlayers := [] } }

/-- The three users touched by the c4 counterexample run. -/
def usersTimeoutEx : List UserDoc :=
  [{ steamId := "a", name := "A", inQueue := false, currentMatch := some "M"
     wins := 0, losses := 0, rating := 0, matchesPlayed := 0 },
   { steamId := "b", name := "B", inQueue := false, currentMatch := some "M"
     wins := 0, losses := 0, rating := 0, matchesPlayed := 0 },
   { steamId := "z", name := "Z", inQueue := true, currentMatch := none
     wins := 0, losses := 0, rating := 0, matchesPlayed := 0 }]

/-- A queue holding session player c and outsider z, for the C4 witness. -/
def qRebEx : QueueDoc :=
  { players := [{ steamId := "z", name := "Z", avatar := "x"
                  position := 1, hasPriority := false },
                { steamId := "c", name := "C", avatar := "x"
                  position := 2, hasPriority := false }]
    status := .waiting
    requiredPlayers := 10
    acceptPhase := { active := false, acceptedPlayers := [], declinedPlayers := [] } }

lemma reindexFrom_length : ∀ (l : List QEntry) (k : Nat),
    (reindexFrom k l).length = l.length := by
  intro l
  induction l with
  | nil => intro k; rfl
  | cons p rest ih => intro k; simp [reindexFrom, ih]

lemma reindexFrom_position : ∀ (l : List QEntry) (k i : Nat)
    (h : i < (reindexFrom k l).length),
    ((reindexFrom k l).get ⟨i, h⟩).position = k + i + 1 := by
  intro l
  induction l with
  | nil => intro k i h; simp [reindexFrom] at h
  | cons p rest ih =>
      intro k i h
      cases i with
      | zero => rfl
      | succ j =>
          have hj : j < (reindexFrom (k + 1) rest).length := by
            simpa [reindexFrom] using h
          have := ih (k + 1) j hj
          have hrec : ((reindexFrom k (p :: rest)).get ⟨j + 1, h⟩) =
              ((reindexFrom (k + 1) rest).get ⟨j, hj⟩) := rfl
          rw [hrec, this]
          omega

lemma reindexFrom_map_fields : ∀ (l : List QEntry) (k : Nat),
    (reindexFrom k l).map (fun e => (e.steamId, e.hasPriority)) =
      l.map (fun e => (e.steamId, e.hasPriority)) := by
  intro l
  induction l with
  | nil => intro k; rfl
  | cons p rest ih => intro k; simp [reindexFrom, ih]

lemma reindex_positionsOK (players : List QEntry) : positionsOK (reindex players) := by
  intro i h
  simpa using reindexFrom_position players 0 i h

lemma positionsOK_append_one (l : List QEntry) (e : QEntry)
    (hl : positionsOK l) (he : e.position = l.length + 1) :
    positionsOK (l ++ [e]) := by
  intro i h
  simp only [List.length_append, List.length_cons, List.length_nil] at h
  rcases Nat.lt_or_ge i l.length with hi | hi
  · have := hl i hi
    simpa [List.get_eq_getElem, List.getElem_append_left hi] using this
  · have hieq : i = l.length := by omega
    subst hieq
    simpa [List.get_eq_getElem] using he

lemma addPlayer_ok_players (q : QueueDoc) (player : PInfo) (q' : QueueDoc)
    (h : q.addPlayer player = .ok q') :
    q'.players = q.players ++
      [{ steamId := player.steamId, name := player.name, avatar := player.avatar
         position := q.players.length + 1, hasPriority := false }] := by
  unfold QueueDoc.addPlayer at h
  split at h
  · exact absurd h (by simp)
  · split at h
    · exact absurd h (by simp)
    · cases h
      rfl

lemma applyOp_positionsOK (q : QueueDoc) (op : QueueOp)
    (hq : positionsOK q.players) : positionsOK (q.applyOp op).players := by
  cases op with
  | add player =>
      unfold QueueDoc.applyOp
      cases hr : q.addPlayer player with
      | error e => simpa [Except.toOption, hr] using hq
      | ok q' =>
          simp only [hr, Except.toOption, Option.getD]
          rw [addPlayer_ok_players q player q' hr]
          exact positionsOK_append_one _ _ hq rfl
  | remove steamId =>
      unfold QueueDoc.applyOp
      cases hr : q.removePlayer steamId with
      | error e => simpa [Except.toOption, hr] using hq
      | ok q' =>
          simp only [hr, Except.toOption, Option.getD]
          unfold QueueDoc.removePlayer at hr
          split at hr
          · exact absurd hr (by simp)
          · cases hr
            exact reindex_positionsOK _
  | processResults =>
      unfold QueueDoc.applyOp QueueDoc.processAcceptPhaseResults
      exact reindex_positionsOK _
  | timeoutRebuild acceptors nonAcceptors =>
      unfold QueueDoc.applyOp rebuildQueueOnTimeout
      exact reindex_positionsOK _

lemma applyOps_positionsOK (q : QueueDoc) (ops : List QueueOp)
    (hq : positionsOK q.players) : positionsOK (q.applyOps ops).players := by
  induction ops generalizing q with
  | nil => simpa [QueueDoc.applyOps] using hq
  | cons op rest ih =>
      have h1 := applyOp_positionsOK q op hq
      simpa [QueueDoc.applyOps, List.foldl_cons] using ih (q.applyOp op) h1

/-- C7: For every queue, after any sequence of join and leave operations
(including the accept-phase result processing and the queue rebuild after an
accept-phase timeout), the entries' positions are the contiguous integers
1..n in array order: entries.get i has position i+1. -/
theorem c7_queue_positions_contiguous (ops : List QueueOp) :
    positionsOK (freshQueue.applyOps ops).players := by
  refine applyOps_positionsOK freshQueue ops ?_
  intro i h
  simp [freshQueue] at h

/-- Witness for C7 at a concrete operation sequence. -/
theorem c7_queue_positions_contiguous_witness :
    positionsOK (freshQueue.applyOps
      [.add ⟨"a", "A", "av"⟩, .add ⟨"b", "B", "av"⟩, .add ⟨"c", "C", "av"⟩,
       .remove "b", .timeoutRebuild ["c"] ["a"]]).players :=
  c7_queue_positions_contiguous _

lemma TeamsRec.mem_push_self (t : TeamsRec) (x : Side) (a : String) :
    a ∈ (t.push x a).side x := by
  cases x <;> simp [TeamsRec.push, TeamsRec.side]

lemma TeamsRec.mem_push_mono (t : TeamsRec) (x y : Side) (a b : String)
    (h : a ∈ t.side x) : a ∈ (t.push y b).side x := by
  cases x <;> cases y <;> simp [TeamsRec.push, TeamsRec.side] at h ⊢ <;>
    first
      | exact h
      | exact Or.inl h

lemma setTeamFirst_undrafted_count (pred : MatchPlayer → Bool) (t : Side)
    (hpred : ∀ p, pred p = true → isUndrafted p = true) :
    ∀ (l : List MatchPlayer) (r : MatchPlayer), l.find? pred = some r →
      ((setTeamFirst pred t l).filter isUndrafted).length + 1 =
        (l.filter isUndrafted).length := by
  intro l
  induction l with
  | nil => intro r h; simp at h
  | cons p rest ih =>
      intro r h
      by_cases hp : pred p
      · have hu : isUndrafted p = true := hpred p hp
        have hset : isUndrafted { p with team := some t } = false := by
          simp [isUndrafted]
        simp [setTeamFirst, hp, List.filter_cons, hu, hset]
      · rw [List.find?_cons_of_neg _ (by simpa using hp)] at h
        by_cases hu : isUndrafted p
        · simpa [setTeamFirst, hp, List.filter_cons, hu] using ih r h
        · simpa [setTeamFirst, hp, List.filter_cons, hu] using ih r h

/-- C1: Matches created by Match.createMatch carry the fixed pick sequence
alpha, alpha, beta, beta, alpha, beta, alpha, beta with currentPicker alpha
and pickIndex 0; pickPlayer rejects a caller that is not the current picker
and a target that is not in the undrafted pool; each success appends the pick
to pickHistory, advances pickIndex, puts the player on the acting side's team
(and, while the pick order is not exhausted, moves currentPicker along
pickOrder without changing the phase); and when the pick exhausts pickOrder,
the phase becomes veto with the veto state initialised, a remaining undrafted
player is assigned to whichever side has fewer members, and a single
remaining undrafted player leaves no one undrafted. -/
theorem c1_draft_pick_protocol :
    (∀ matchId ps c1 c2 now,
        (Match.createMatch matchId ps c1 c2 now).pickOrder =
          [.alpha, .alpha, .beta, .beta, .alpha, .beta, .alpha, .beta] ∧
        (Match.createMatch matchId ps c1 c2 now).currentPicker = .alpha ∧
        (Match.createMatch matchId ps c1 c2 now).pickIndex = 0) ∧
    (∀ (m : MatchDoc) s side, side ≠ m.currentPicker →
        m.pickPlayer s side = .error "Not this captains turn") ∧
    (∀ (m : MatchDoc) s side, side = m.currentPicker →
        m.players.find? (pickTarget s) = none →
        m.pickPlayer s side = .error "Player not found or already drafted") ∧
    (∀ (m : MatchDoc) s side m', m.pickPlayer s side = .ok m' →
        m'.pickHistory = m.pickHistory ++ [{ captain := side, steamId := s }] ∧
        m'.pickIndex = m.pickIndex + 1 ∧
        s ∈ m'.teams.side side ∧
        (∀ (hlt : m.pickIndex + 1 < m.pickOrder.length),
          m'.currentPicker = m.pickOrder.get ⟨m.pickIndex + 1, hlt⟩ ∧
          m'.phase = m.phase)) ∧
    (∀ (m : MatchDoc) s side m', m.pickPlayer s side = .ok m' →
        m.pickOrder.length ≤ m.pickIndex + 1 →
        m'.phase = .veto ∧ m'.currentVeto = .alpha ∧ m'.vetoIndex = 0 ∧
        m'.vetoOrder = genAlt (m.availableMaps.length - 1) ∧
        (∀ r, (setTeamFirst (pickTarget s) side m.players).find? isUndrafted = some r →
          (if (m.teams.push side s).alpha.length < (m.teams.push side s).beta.length
           then r.steamId ∈ m'.teams.alpha
           else r.steamId ∈ m'.teams.beta)) ∧
        (((setTeamFirst (pickTarget s) side m.players).filter isUndrafted).length = 1 →
          (m'.players.filter isUndrafted).length = 0)) := by
  refine ⟨?_, ?_, ?_, ?_, ?_⟩
  · intro matchId ps c1 c2 now
    refine ⟨rfl, rfl, rfl⟩
  · intro m s side h
    unfold MatchDoc.pickPlayer
    rw [if_pos (fun e => h e.symm)]
  · intro m s side h1 h2
    unfold MatchDoc.pickPlayer
    rw [if_neg (fun hne => hne h1.symm), h2]
  · intro m s side m' h
    simp only [MatchDoc.pickPlayer] at h
    split at h
    · exact Except.noConfusion h
    · split at h
      · exact Except.noConfusion h
      · split at h
        · injection h with h
          subst h
          refine ⟨rfl, rfl, TeamsRec.mem_push_self _ _ _, ?_⟩
          intro hlt
          exact ⟨rfl, rfl⟩
        · rename_i hnlt
          split at h
          · injection h with h
            subst h
            refine ⟨rfl, rfl,
              TeamsRec.mem_push_mono _ _ _ _ _ (TeamsRec.mem_push_self _ _ _), ?_⟩
            intro hlt
            exact absurd hlt hnlt
          · injection h with h
            subst h
            refine ⟨rfl, rfl, TeamsRec.mem_push_self _ _ _, ?_⟩
            intro hlt
            exact absurd hlt hnlt
  · intro m s side m' h hge
    simp only [MatchDoc.pickPlayer] at h
    split at h
    · exact Except.noConfusion h
    · split at h
      · exact Except.noConfusion h
      · split at h
        · rename_i hlt
          omega
        · rename_i hnlt
          split at h
          · rename_i lastPlayer hfind
            injection h with h
            subst h
            refine ⟨rfl, rfl, rfl, rfl, ?_, ?_⟩
            · intro r hr
              rw [hfind] at hr
              injection hr with hr
              subst hr
              by_cases hcmp : (m.teams.push side s).alpha.length <
                  (m.teams.push side s).beta.length
              · simp only [hcmp, if_true]
                cases side <;> simp [TeamsRec.push]
              · simp only [hcmp, if_false]
                cases side <;> simp [TeamsRec.push]
            · intro hcount
              have hc := setTeamFirst_undrafted_count isUndrafted
                (if (m.teams.push side s).alpha.length <
                    (m.teams.push side s).beta.length then .alpha else .beta)
                (fun p hp => hp) _ _ hfind
              have hgoal : (List.filter isUndrafted (setTeamFirst isUndrafted
                  (if (m.teams.push side s).alpha.length <
                      (m.teams.push side s).beta.length then Side.alpha else Side.beta)
                  (setTeamFirst (pickTarget s) side m.players))).length = 0 := by
                omega
              exact hgoal
          · rename_i hfind
            injection h with h
            subst h
            refine ⟨rfl, rfl, rfl, rfl, ?_, ?_⟩
            · intro r hr
              rw [hfind] at hr
              exact Option.noConfusion hr
            · intro hcount
              have hnil : (setTeamFirst (pickTarget s) side m.players).filter
                  isUndrafted = [] := by
                rw [List.filter_eq_nil_iff]
                intro p hp
                have := List.find?_eq_none.mp hfind p hp
                simpa using this
              rw [hnil] at hcount
              simp at hcount

/-- Witness for C1: concrete rejections and a concrete successful pick on a
freshly created match. -/
theorem c1_draft_pick_protocol_witness :
    (Match.createMatch "M" [⟨"a", "A", "x"⟩, ⟨"b", "B", "x"⟩, ⟨"c", "C", "x"⟩]
      "a" "b" 0).pickPlayer "c" .beta = .error "Not this captains turn" ∧
    (Match.createMatch "M" [⟨"a", "A", "x"⟩, ⟨"b", "B", "x"⟩, ⟨"c", "C", "x"⟩]
      "a" "b" 0).pickPlayer "zz" .alpha = .error "Player not found or already drafted" :=
  ⟨c1_draft_pick_protocol.2.1 _ _ _ (by decide),
   c1_draft_pick_protocol.2.2.1 _ _ _ (by decide) (by decide)⟩

lemma setTeamFirst_preserves_assigned (pred : MatchPlayer → Bool) (t : Side)
    (Q : String → Prop) :
    ∀ l : List MatchPlayer, (∀ p ∈ l, Q p.steamId → p.team ≠ none) →
      ∀ p ∈ setTeamFirst pred t l, Q p.steamId → p.team ≠ none := by
  intro l
  induction l with
  | nil => intro _ p hp; simp [setTeamFirst] at hp
  | cons a rest ih =>
      intro hl p hp hq
      by_cases ha : pred a
      · simp only [setTeamFirst, ha, if_true] at hp
        rcases List.mem_cons.mp hp with rfl | hp
        · simp
        · exact hl p (List.mem_cons_of_mem a hp) hq
      · simp only [setTeamFirst, ha, if_false] at hp
        rcases List.mem_cons.mp hp with rfl | hp
        · exact hl p (List.mem_cons_self _ _) hq
        · exact ih (fun q hq2 => hl q (List.mem_cons_of_mem a hq2)) p hp hq

lemma pickPlayer_preserves_assigned (c1 c2 : String) (m m' : MatchDoc)
    (s : String) (c : Side) (h : m.pickPlayer s c = .ok m')
    (hm : captainsAssigned c1 c2 m) : captainsAssigned c1 c2 m' := by
  simp only [MatchDoc.pickPlayer] at h
  split at h
  · exact Except.noConfusion h
  · split at h
    · exact Except.noConfusion h
    · have hmid := setTeamFirst_preserves_assigned (pickTarget s) c
        (fun id => id = c1 ∨ id = c2) m.players hm
      split at h
      · injection h with h
        subst h
        exact hmid
      · split at h
        · injection h with h
          subst h
          exact setTeamFirst_preserves_assigned isUndrafted _
            (fun id => id = c1 ∨ id = c2) _ hmid
        · injection h with h
          subst h
          exact hmid

lemma banMap_players_unchanged (m m' : MatchDoc) (mapName : String) (c : Side)
    (h : m.banMap mapName c = .ok m') : m'.players = m.players := by
  unfold MatchDoc.banMap at h
  split at h
  · exact Except.noConfusion h
  · split at h
    · split at h
      · injection h with h; subst h; rfl
      · injection h with h; subst h; rfl
    · exact Except.noConfusion h

lemma acceptMatch_players_unchanged (m m' : MatchDoc) (s : String) (now : Nat)
    (h : m.acceptMatch s now = .ok m') : m'.players = m.players := by
  unfold MatchDoc.acceptMatch at h
  split at h
  · exact Except.noConfusion h
  · split at h
    · exact Except.noConfusion h
    · split at h
      · exact Except.noConfusion h
      · split at h
        · exact Except.noConfusion h
        · injection h with h; subst h; rfl

lemma completeMatchDoc_players_unchanged (m m' : MatchDoc) (w : WinnerChoice)
    (a b : Nat) (h : m.completeMatchDoc w a b = .ok m') : m'.players = m.players := by
  unfold MatchDoc.completeMatchDoc at h
  cases w with
  | tie => exact Except.noConfusion h
  | alpha => injection h with h; subst h; rfl
  | beta => injection h with h; subst h; rfl

lemma reachable_captainsAssigned (m0 : MatchDoc) (c1 c2 : String)
    (h0 : captainsAssigned c1 c2 m0) :
    ∀ m, ReachableFrom m0 m → captainsAssigned c1 c2 m := by
  intro m h
  induction h with
  | refl => exact h0
  | pickStep m m' s c _ hok ih => exact pickPlayer_preserves_assigned c1 c2 m m' s c hok ih
  | banStep m m' mapName c _ hok ih =>
      intro p hp
      rw [banMap_players_unchanged m m' mapName c hok] at hp
      exact ih p hp
  | acceptStep m m' s now _ hok ih =>
      intro p hp
      rw [acceptMatch_players_unchanged m m' s now hok] at hp
      exact ih p hp
  | endAcceptStep m _ ih => exact ih
  | genPickStep m _ ih => exact ih
  | genVetoStep m _ ih => exact ih
  | completeStep m m' w a b _ hok ih =>
      intro p hp
      rw [completeMatchDoc_players_unchanged m m' w a b hok] at hp
      exact ih p hp
  | cancelStep m _ ih => exact ih

lemma createMatch_captainsAssigned (matchId : String) (ps : List PInfo)
    (c1 c2 : String) (now : Nat) :
    captainsAssigned c1 c2 (Match.createMatch matchId ps c1 c2 now) := by
  intro p hp hq
  simp only [Match.createMatch, MatchDoc.generatePickOrder, List.mem_map] at hp
  rcases hp with ⟨q, _, rfl⟩
  have hq2 : q.steamId = c1 ∨ q.steamId = c2 := by simpa using hq
  show (if q.steamId = c1 ∨ q.steamId = c2 then
      (if q.steamId = c1 then some Side.alpha else some Side.beta) else none) ≠ none
  rw [if_pos hq2]
  by_cases h1 : q.steamId = c1 <;> simp [h1]

lemma length_filter_comp {α β : Type} (g : α → β) (p : β → Bool) :
    ∀ l : List α, ((l.map g).filter p).length = (l.filter (fun q => p (g q))).length := by
  intro l
  induction l with
  | nil => rfl
  | cons a rest ih =>
      by_cases ha : p (g a) <;> simp [List.filter_cons, ha, ih]

lemma filter_not_mem_length (ids : List String) :
    ∀ cs : List String, ids.Nodup → cs.Nodup → (∀ c ∈ cs, c ∈ ids) →
      (ids.filter (fun s => decide (s ∉ cs))).length + cs.length = ids.length := by
  induction ids with
  | nil =>
      intro cs _ _ hcs
      have : cs = [] := List.eq_nil_iff_forall_not_mem.mpr (fun c hc => by
        simpa using hcs c hc)
      simp [this]
  | cons a rest ih =>
      intro cs hnd hcnd hcs
      have hna : a ∉ rest := (List.nodup_cons.mp hnd).1
      have hrest : rest.Nodup := (List.nodup_cons.mp hnd).2
      by_cases hmem : a ∈ cs
      · have hfe : rest.filter (fun s => decide (s ∉ cs)) =
            rest.filter (fun s => decide (s ∉ cs.erase a)) := by
          apply List.filter_congr
          intro s hs
          have hsa : s ≠ a := fun e => hna (e ▸ hs)
          simp [List.mem_erase_of_ne hsa]
        have hcs' : ∀ c ∈ cs.erase a, c ∈ rest := by
          intro c hc
          have hca : c ≠ a := (hcnd.mem_erase_iff.mp hc).1
          have : c ∈ a :: rest := hcs c (List.mem_of_mem_erase hc)
          rcases List.mem_cons.mp this with rfl | h
          · exact absurd rfl hca
          · exact h
        have hlen := ih (cs.erase a) hrest (hcnd.erase a) hcs'
        have hlcs : (cs.erase a).length + 1 = cs.length :=
          List.length_erase_add_one hmem
        simp only [List.filter_cons, List.length_cons]
        rw [if_neg (by simp [hmem])]
        rw [hfe]
        omega
      · have hcs' : ∀ c ∈ cs, c ∈ rest := by
          intro c hc
          have hca : c ≠ a := fun e => hmem (e ▸ hc)
          rcases List.mem_cons.mp (hcs c hc) with rfl | h
          · exact absurd rfl hca
          · exact h
        have hlen := ih cs hrest hcnd hcs'
        simp only [List.filter_cons, List.length_cons]
        rw [if_pos (by simp [hmem])]
        simp only [List.length_cons]
        omega

/-- C10: Match.createMatch pre-assigns each captain to their own side:
teams.alpha is exactly [captains[0]] and teams.beta exactly [captains[1]],
each captain's player record carries team alpha/beta rather than undrafted,
the undrafted pool of a ten-player match with two distinct captains among
the players has exactly eight members, and pickPlayer with a captain's
steamId fails in every state reachable from the created match. -/
theorem c10_captains_preassigned :
    (∀ matchId ps c1 c2 now,
        (Match.createMatch matchId ps c1 c2 now).teams.alpha = [c1] ∧
        (Match.createMatch matchId ps c1 c2 now).teams.beta = [c2] ∧
        (∀ p ∈ (Match.createMatch matchId ps c1 c2 now).players,
          (p.steamId = c1 → p.team = some .alpha) ∧
          (p.steamId ≠ c1 → p.steamId = c2 → p.team = some .beta) ∧
          (p.steamId ≠ c1 → p.steamId ≠ c2 → p.team = none))) ∧
    (∀ matchId ps c1 c2 now,
        (ps.map PInfo.steamId).Nodup →
        c1 ∈ ps.map PInfo.steamId → c2 ∈ ps.map PInfo.steamId → c1 ≠ c2 →
        ps.length = 10 →
        ((Match.createMatch matchId ps c1 c2 now).players.filter isUndrafted).length = 8) ∧
    (∀ matchId ps c1 c2 now m,
        ReachableFrom (Match.createMatch matchId ps c1 c2 now) m →
        ∀ c side, (c = c1 ∨ c = c2) →
        exceptIsError (m.pickPlayer c side) = true) := by
  refine ⟨?_, ?_, ?_⟩
  · intro matchId ps c1 c2 now
    refine ⟨rfl, rfl, ?_⟩
    intro p hp
    simp only [Match.createMatch, MatchDoc.generatePickOrder, List.mem_map] at hp
    rcases hp with ⟨q, _, rfl⟩
    refine ⟨?_, ?_, ?_⟩
    · intro h1
      have h1q : q.steamId = c1 := by simpa using h1
      show (if q.steamId = c1 ∨ q.steamId = c2 then
          (if q.steamId = c1 then some Side.alpha else some Side.beta) else none)
        = some Side.alpha
      rw [if_pos (Or.inl h1q), if_pos h1q]
    · intro h1 h2
      have h1q : ¬ q.steamId = c1 := by simpa using h1
      have h2q : q.steamId = c2 := by simpa using h2
      show (if q.steamId = c1 ∨ q.steamId = c2 then
          (if q.steamId = c1 then some Side.alpha else some Side.beta) else none)
        = some Side.beta
      rw [if_pos (Or.inr h2q), if_neg h1q]
    · intro h1 h2
      have h1q : ¬ q.steamId = c1 := by simpa using h1
      have h2q : ¬ q.steamId = c2 := by simpa using h2
      show (if q.steamId = c1 ∨ q.steamId = c2 then
          (if q.steamId = c1 then some Side.alpha else some Side.beta) else none)
        = none
      rw [if_neg (fun h => h.elim h1q h2q)]
  · intro matchId ps c1 c2 now hnd h1 h2 hne hlen
    have hcomp : ((Match.createMatch matchId ps c1 c2 now).players.filter
        isUndrafted).length =
        (ps.filter (fun q => decide (q.steamId ∉ [c1, c2]))).length := by
      show ((ps.map (fun p =>
        ({ steamId := p.steamId, name := p.name, avatar := p.avatar
           team :=
             if p.steamId = c1 ∨ p.steamId = c2 then
               (if p.steamId = c1 then some .alpha else some .beta)
             else none } : MatchPlayer))).filter isUndrafted).length = _
      rw [length_filter_comp]
      apply congrArg
      apply List.filter_congr
      intro q _
      by_cases hq1 : q.steamId = c1
      · simp [isUndrafted, hq1]
      · by_cases hq2 : q.steamId = c2
        · show (decide ((if q.steamId = c1 ∨ q.steamId = c2 then
              (if q.steamId = c1 then some Side.alpha else some Side.beta)
              else none) = none) : Bool) = decide (q.steamId ∉ [c1, c2])
          rw [if_pos (Or.inr hq2), if_neg hq1]
          simp [hq2]
        · simp [isUndrafted, hq1, hq2]
    have hids : (ps.filter (fun q => decide (q.steamId ∉ [c1, c2]))).length =
        ((ps.map PInfo.steamId).filter (fun s => decide (s ∉ [c1, c2]))).length := by
      rw [length_filter_comp]
    have hmain := filter_not_mem_length (ps.map PInfo.steamId) [c1, c2] hnd
      (by simp [hne])
      (by
        intro c hc
        have hc2 : c = c1 ∨ c = c2 := by simpa using hc
        rcases hc2 with rfl | rfl
        · exact h1
        · exact h2)
    rw [hcomp, hids]
    have hlen2 : (ps.map PInfo.steamId).length = 10 := by simp [hlen]
    have hlcs : ([c1, c2] : List String).length = 2 := rfl
    omega
  · intro matchId ps c1 c2 now m hreach c side hc
    have hassigned := reachable_captainsAssigned _ c1 c2
      (createMatch_captainsAssigned matchId ps c1 c2 now) m hreach
    have hfind : m.players.find? (pickTarget c) = none := by
      rw [List.find?_eq_none]
      intro p hp
      intro hpt
      have := hassigned p hp
      simp only [pickTarget, decide_eq_true_eq] at hpt
      rcases hpt with ⟨hid, hteam⟩
      exact this (hid ▸ hc) hteam
    unfold MatchDoc.pickPlayer
    by_cases hturn : m.currentPicker ≠ side
    · rw [if_pos hturn]
      rfl
    · rw [if_neg hturn, hfind]
      rfl

/-- Witness for C10: the undrafted-pool count and the captain-pick failure
at a concrete ten-player match. -/
theorem c10_captains_preassigned_witness :
    ((Match.createMatch "M"
      [⟨"p1", "P1", "x"⟩, ⟨"p2", "P2", "x"⟩, ⟨"p3", "P3", "x"⟩, ⟨"p4", "P4", "x"⟩,
       ⟨"p5", "P5", "x"⟩, ⟨"p6", "P6", "x"⟩, ⟨"p7", "P7", "x"⟩, ⟨"p8", "P8", "x"⟩,
       ⟨"p9", "P9", "x"⟩, ⟨"p10", "P10", "x"⟩] "p1" "p2" 0).players.filter
        isUndrafted).length = 8 ∧
    exceptIsError ((Match.createMatch "M"
      [⟨"p1", "P1", "x"⟩, ⟨"p2", "P2", "x"⟩, ⟨"p3", "P3", "x"⟩, ⟨"p4", "P4", "x"⟩,
       ⟨"p5", "P5", "x"⟩, ⟨"p6", "P6", "x"⟩, ⟨"p7", "P7", "x"⟩, ⟨"p8", "P8", "x"⟩,
       ⟨"p9", "P9", "x"⟩, ⟨"p10", "P10", "x"⟩] "p1" "p2" 0).pickPlayer "p1" .alpha)
      = true :=
  ⟨c10_captains_preassigned.2.1 "M" _ "p1" "p2" 0 (by decide) (by decide) (by decide)
      (by decide) (by decide),
   c10_captains_preassigned.2.2 "M" _ "p1" "p2" 0 _ ReachableFrom.refl "p1" .alpha
      (Or.inl rfl)⟩

lemma Side.flip_flip (s : Side) : s.flip.flip = s := by
  cases s <;> rfl

lemma banRecords_map_map (bans : List String) (s : Side) :
    (banRecords bans s).map BanEntry.map = bans := by
  induction bans generalizing s with
  | nil => rfl
  | cons b bs ih => simp [banRecords, ih]

lemma banRecords_length (bans : List String) (s : Side) :
    (banRecords bans s).length = bans.length := by
  induction bans generalizing s with
  | nil => rfl
  | cons b bs ih => simp [banRecords, ih]

lemma banRecords_get_bannedBy (bans : List String) (s : Side) :
    ∀ i (h : i < (banRecords bans s).length),
      ((banRecords bans s).get ⟨i, h⟩).bannedBy =
        (if i % 2 = 0 then s else s.flip) := by
  induction bans generalizing s with
  | nil => intro i h; simp [banRecords] at h
  | cons b bs ih =>
      intro i h
      cases i with
      | zero => simp [banRecords]
      | succ j =>
          have hj : j < (banRecords bs s.flip).length := by
            simpa [banRecords] using h
          have hrec : ((banRecords (b :: bs) s).get ⟨j + 1, h⟩) =
              ((banRecords bs s.flip).get ⟨j, hj⟩) := rfl
          rw [hrec, ih s.flip j hj]
          by_cases hpar : j % 2 = 0
          · rw [if_pos hpar, if_neg (by omega)]
          · rw [if_neg hpar, if_pos (by omega), Side.flip_flip]

lemma length_filter_ne (b : String) :
    ∀ l : List String, l.Nodup → b ∈ l →
      (l.filter (fun x => x ≠ b)).length + 1 = l.length := by
  intro l
  induction l with
  | nil => intro _ h; simp at h
  | cons a rest ih =>
      intro hnd hb
      rcases List.mem_cons.mp hb with heq | hb2
      · have hnin : a ∉ rest := (List.nodup_cons.mp hnd).1
        have hrest : rest.filter (fun x => x ≠ b) = rest := by
          apply List.filter_eq_self.mpr
          intro x hx
          have hxb : ¬ x = b := fun e => hnin (by rw [← heq, ← e]; exact hx)
          simpa using hxb
        simp only [List.filter_cons]
        rw [if_neg (by rw [← heq]; simp)]
        rw [hrest]
        simp
      · have hab : a ≠ b := fun e => ((List.nodup_cons.mp hnd).1) (by rw [e]; exact hb2)
        have hr := ih (List.nodup_cons.mp hnd).2 hb2
        simp only [List.filter_cons, List.length_cons]
        rw [if_pos (by simpa using hab)]
        simp only [List.length_cons]
        omega

lemma runBans_spec :
    ∀ (bans : List String) (m : MatchDoc),
      2 ≤ m.availableMaps.length →
      m.availableMaps.Nodup → bans.Nodup →
      (∀ b ∈ bans, b ∈ m.availableMaps) →
      bans.length + 1 ≤ m.availableMaps.length →
      ∃ m', runBans m bans = .ok m' ∧
        m'.availableMaps = m.availableMaps.filter (fun x => x ∉ bans) ∧
        m'.bannedMaps = m.bannedMaps ++ banRecords bans m.currentVeto ∧
        (bans.length + 1 = m.availableMaps.length →
          m'.phase = .ready ∧ m'.selectedMap = m'.availableMaps.head?) ∧
        (bans.length + 1 < m.availableMaps.length →
          m'.phase = m.phase ∧ m'.selectedMap = m.selectedMap) := by
  intro bans
  induction bans with
  | nil =>
      intro m h2 hnd _ _ hlen
      refine ⟨m, rfl, by simp, by simp [banRecords], ?_, ?_⟩
      · intro h1
        exfalso
        simp only [List.length_nil] at h1
        omega
      · intro _
        exact ⟨rfl, rfl⟩
  | cons b bs ih =>
      intro m h2 hndm hndb hmem hlen
      have hb : b ∈ m.availableMaps := hmem b (List.mem_cons_self _ _)
      have hflen : (m.availableMaps.filter (fun x => x ≠ b)).length + 1 =
          m.availableMaps.length := length_filter_ne b m.availableMaps hndm hb
      have hlenc : bs.length + 2 ≤ m.availableMaps.length := by
        simp only [List.length_cons] at hlen
        omega
      by_cases hfin : (m.availableMaps.filter (fun x => x ≠ b)).length = 1
      · -- final ban: two maps left, this ban selects the survivor
        have hbs : bs = [] := by
          have hz : bs.length = 0 := by omega
          exact List.length_eq_zero.mp hz
        subst hbs
        refine ⟨{ m with
            availableMaps := m.availableMaps.filter (fun x => x ≠ b)
            bannedMaps := m.bannedMaps ++ [{ map := b, bannedBy := m.currentVeto }]
            selectedMap := (m.availableMaps.filter (fun x => x ≠ b)).head?
            phase := .ready }, ?_, ?_, ?_, ?_, ?_⟩
        · show (match m.banMap b m.currentVeto with
            | .ok m1 => runBans m1 []
            | .error e => .error e) = _
          unfold MatchDoc.banMap
          rw [if_neg (by simp), if_pos hb, if_pos hfin]
          rfl
        · apply List.filter_congr
          intro x _
          simp
        · simp [banRecords]
        · intro _
          exact ⟨rfl, rfl⟩
        · intro hlt
          exfalso
          simp only [List.length_cons, List.length_nil] at hlt
          omega
      · -- non-final ban: turn flips and the run continues
        have hge3 : 3 ≤ m.availableMaps.length := by omega
        have hm1ban : m.banMap b m.currentVeto = .ok { m with
            availableMaps := m.availableMaps.filter (fun x => x ≠ b)
            bannedMaps := m.bannedMaps ++ [{ map := b, bannedBy := m.currentVeto }]
            vetoIndex := m.vetoIndex + 1
            currentVeto := m.currentVeto.flip } := by
          unfold MatchDoc.banMap
          rw [if_neg (by simp), if_pos hb, if_neg hfin]
        have hnd1 : (m.availableMaps.filter (fun x => x ≠ b)).Nodup :=
          hndm.filter _
        have hndbs : bs.Nodup := (List.nodup_cons.mp hndb).2
        have hbnin : b ∉ bs := (List.nodup_cons.mp hndb).1
        have hmem1 : ∀ x ∈ bs, x ∈ m.availableMaps.filter (fun x => x ≠ b) := by
          intro x hx
          rw [List.mem_filter]
          refine ⟨hmem x (List.mem_cons_of_mem _ hx), ?_⟩
          have hxb : ¬ x = b := fun e => hbnin (by rw [← e]; exact hx)
          simpa using hxb
        have hlen1 : bs.length + 1 ≤ (m.availableMaps.filter (fun x => x ≠ b)).length := by
          omega
        have h21 : 2 ≤ (m.availableMaps.filter (fun x => x ≠ b)).length := by
          omega
        rcases ih ({ m with
            availableMaps := m.availableMaps.filter (fun x => x ≠ b)
            bannedMaps := m.bannedMaps ++ [{ map := b, bannedBy := m.currentVeto }]
            vetoIndex := m.vetoIndex + 1
            currentVeto := m.currentVeto.flip }) h21 hnd1 hndbs hmem1 hlen1 with
          ⟨m', hrun, havail, hbanned, heq, hlt⟩
        have heq2 : bs.length + 1 = (m.availableMaps.filter (fun x => x ≠ b)).length →
            m'.phase = .ready ∧ m'.selectedMap = m'.availableMaps.head? := heq
        have hltA : bs.length + 1 < (m.availableMaps.filter (fun x => x ≠ b)).length →
            m'.phase = m.phase ∧ m'.selectedMap = m.selectedMap := hlt
        refine ⟨m', ?_, ?_, ?_, ?_, ?_⟩
        · show (match m.banMap b m.currentVeto with
            | .ok m1 => runBans m1 bs
            | .error e => .error e) = _
          rw [hm1ban]
          exact hrun
        · rw [havail]
          show (List.filter (fun x => decide (x ∉ bs))
              (m.availableMaps.filter (fun x => x ≠ b))) = _
          rw [List.filter_filter]
          apply List.filter_congr
          intro x _
          by_cases hxb : x = b
          · simp [hxb]
          · simp [hxb]
        · rw [hbanned]
          simp [banRecords]
        · intro hfull
          apply heq2
          simp only [List.length_cons] at hfull
          omega
        · intro hlt2
          simp only [List.length_cons] at hlt2
          exact hltA (by omega)

/-- C2: generateVetoOrder produces N-1 alternating turns starting with alpha;
banMap rejects an out-of-turn side and a map outside availableMaps; a
successful ban records the ban and removes the map, completing the veto the
instant one map remains (that map becomes selectedMap, phase ready) and
otherwise flipping the turn; and a full run of N-1 turn-respecting bans on an
N-map pool succeeds, alternates alpha, beta, alpha, ... and leaves the single
unbanned map selected with the phase ready. -/
theorem c2_veto_protocol :
    (∀ m : MatchDoc,
        m.generateVetoOrder.vetoOrder.length = m.availableMaps.length - 1 ∧
        (∀ i (h : i < m.generateVetoOrder.vetoOrder.length),
          m.generateVetoOrder.vetoOrder.get ⟨i, h⟩ =
            (if i % 2 = 0 then Side.alpha else Side.beta)) ∧
        m.generateVetoOrder.currentVeto = .alpha ∧
        m.generateVetoOrder.vetoIndex = 0) ∧
    (∀ (m : MatchDoc) mapName side, side ≠ m.currentVeto →
        m.banMap mapName side = .error "Not this captains turn") ∧
    (∀ (m : MatchDoc) mapName side, side = m.currentVeto → mapName ∉ m.availableMaps →
        m.banMap mapName side = .error "Map not available or already banned") ∧
    (∀ (m : MatchDoc) mapName side m', m.banMap mapName side = .ok m' →
        m'.bannedMaps = m.bannedMaps ++ [{ map := mapName, bannedBy := side }] ∧
        m'.availableMaps = m.availableMaps.filter (fun x => x ≠ mapName) ∧
        (m'.availableMaps.length = 1 →
          m'.selectedMap = m'.availableMaps.head? ∧ m'.phase = .ready) ∧
        (m'.availableMaps.length ≠ 1 →
          m'.currentVeto = m.currentVeto.flip ∧ m'.vetoIndex = m.vetoIndex + 1 ∧
          m'.phase = m.phase ∧ m'.selectedMap = m.selectedMap)) ∧
    (∀ (m : MatchDoc) (bans : List String),
        m.phase = .veto → m.currentVeto = .alpha →
        2 ≤ m.availableMaps.length → m.availableMaps.Nodup → bans.Nodup →
        (∀ b ∈ bans, b ∈ m.availableMaps) →
        bans.length + 1 = m.availableMaps.length →
        ∃ m', runBans m bans = .ok m' ∧
          m'.phase = .ready ∧
          m'.availableMaps = m.availableMaps.filter (fun x => x ∉ bans) ∧
          m'.selectedMap = m'.availableMaps.head? ∧
          m'.availableMaps.length = 1 ∧
          m'.bannedMaps = m.bannedMaps ++ banRecords bans .alpha ∧
          (banRecords bans .alpha).map BanEntry.map = bans ∧
          (∀ i (h : i < (banRecords bans .alpha).length),
            ((banRecords bans .alpha).get ⟨i, h⟩).bannedBy =
              (if i % 2 = 0 then Side.alpha else Side.beta))) := by
  refine ⟨?_, ?_, ?_, ?_, ?_⟩
  · intro m
    refine ⟨by simp [MatchDoc.generateVetoOrder, genAlt], ?_, rfl, rfl⟩
    intro i h
    simp [MatchDoc.generateVetoOrder, genAlt]
  · intro m mapName side h
    unfold MatchDoc.banMap
    rw [if_pos (fun e => h e.symm)]
  · intro m mapName side h1 h2
    unfold MatchDoc.banMap
    rw [if_neg (fun hne => hne h1.symm), if_neg h2]
  · intro m mapName side m' h
    unfold MatchDoc.banMap at h
    split at h
    · exact Except.noConfusion h
    · split at h
      · split at h
        · rename_i hmem h1
          injection h with h
          subst h
          refine ⟨rfl, rfl, ?_, ?_⟩
          · intro _
            exact ⟨rfl, rfl⟩
          · intro hne
            exact absurd h1 hne
        · rename_i hmem h1
          injection h with h
          subst h
          refine ⟨rfl, rfl, ?_, ?_⟩
          · intro heq1
            exact absurd heq1 h1
          · intro _
            exact ⟨rfl, rfl, rfl, rfl⟩
      · exact Except.noConfusion h
  · intro m bans hphase hcv h2 hndm hndb hmem hlen
    rcases runBans_spec bans m h2 hndm hndb hmem (le_of_eq hlen) with
      ⟨m', hrun, havail, hbanned, heq, _⟩
    have hready := heq hlen
    have hcnt := filter_not_mem_length m.availableMaps bans hndm hndb hmem
    refine ⟨m', hrun, hready.1, havail, hready.2, ?_, ?_, ?_, ?_⟩
    · rw [havail]
      omega
    · rw [hbanned, hcv]
    · exact banRecords_map_map bans .alpha
    · intro i h
      have := banRecords_get_bannedBy bans .alpha i h
      simpa [Side.flip] using this

/-- Witness for C2: rejections and a full two-ban run on a concrete
three-map veto. -/
theorem c2_veto_protocol_witness :
    mVetoEx.banMap "Mirage" .beta = .error "Not this captains turn" ∧
    mVetoEx.banMap "Cache" .alpha = .error "Map not available or already banned" ∧
    (∃ m', runBans mVetoEx ["Dust II", "Mirage"] = .ok m' ∧
      m'.phase = .ready ∧
      m'.availableMaps = mVetoEx.availableMaps.filter
        (fun x => x ∉ ["Dust II", "Mirage"]) ∧
      m'.selectedMap = m'.availableMaps.head? ∧
      m'.availableMaps.length = 1 ∧
      m'.bannedMaps = mVetoEx.bannedMaps ++ banRecords ["Dust II", "Mirage"] .alpha ∧
      (banRecords ["Dust II", "Mirage"] .alpha).map BanEntry.map = ["Dust II", "Mirage"] ∧
      (∀ i (h : i < (banRecords ["Dust II", "Mirage"] .alpha).length),
        ((banRecords ["Dust II", "Mirage"] .alpha).get ⟨i, h⟩).bannedBy =
          (if i % 2 = 0 then Side.alpha else Side.beta))) :=
  ⟨c2_veto_protocol.2.1 mVetoEx "Mirage" .beta (by decide),
   c2_veto_protocol.2.2.1 mVetoEx "Cache" .alpha rfl (by decide),
   c2_veto_protocol.2.2.2.2 mVetoEx ["Dust II", "Mirage"] rfl rfl (by decide)
     (by decide) (by decide) (by decide) (by decide)⟩

/-- C8: the provisioning continuation of the ban-map controller sets the
phase to live for every outcome: success stores serverInfo, failure and a
thrown error leave serverInfo untouched; and a veto-completing ban leaves
the match in ready, from which every provisioning outcome goes live. -/
theorem c8_provisioning_always_goes_live :
    (∀ (m : MatchDoc) (o : ProvisionOutcome),
        (handleProvisionOutcome m o).phase = .live) ∧
    (∀ (m : MatchDoc) info,
        (handleProvisionOutcome m (.success info)).serverInfo = some info) ∧
    (∀ (m : MatchDoc) e,
        (handleProvisionOutcome m (.failure e)).serverInfo = m.serverInfo) ∧
    (∀ (m : MatchDoc) e,
        (handleProvisionOutcome m (.thrown e)).serverInfo = m.serverInfo) ∧
    (∀ (m m' : MatchDoc) mapName side, m.banMap mapName side = .ok m' →
        m'.availableMaps.length = 1 →
        m'.phase = .ready ∧
        ∀ o, (handleProvisionOutcome m' o).phase = .live) := by
  refine ⟨?_, ?_, ?_, ?_, ?_⟩
  · intro m o
    cases o <;> rfl
  · intro m info
    rfl
  · intro m e
    rfl
  · intro m e
    rfl
  · intro m m' mapName side h hlen
    unfold MatchDoc.banMap at h
    split at h
    · exact Except.noConfusion h
    · split at h
      · split at h
        · injection h with h
          subst h
          exact ⟨rfl, fun o => by cases o <;> rfl⟩
        · rename_i h1
          injection h with h
          subst h
          exact absurd hlen h1
      · exact Except.noConfusion h

/-- Witness for C8: the concrete final ban of mBan2Ex reaches ready and a
failed provisioning still moves it to live. -/
theorem c8_provisioning_always_goes_live_witness :
    mBanResEx.phase = .ready ∧
    (handleProvisionOutcome mBanResEx (.failure "dathost unreachable")).phase = .live :=
  have h := c8_provisioning_always_goes_live.2.2.2.2 mBan2Ex mBanResEx "Mirage" .alpha
    (by rfl) (by decide)
  ⟨h.1, h.2 (.failure "dathost unreachable")⟩

lemma findSession_none_of_not_mem (matchId : String) :
    ∀ store : List ReadySessionDoc,
      (∀ s ∈ store, ¬(s.matchId = matchId ∧ s.status = .active)) →
      findSession store matchId = none := by
  intro store
  induction store with
  | nil => intro _; rfl
  | cons a rest ih =>
      intro h
      rw [findSession, if_neg (h a (List.mem_cons_self _ _))]
      exact ih (fun s hs => h s (List.mem_cons_of_mem a hs))

lemma findSession_replace_none (matchId : String) (s' : ReadySessionDoc)
    (hs' : ¬ s'.status = .active) :
    ∀ (store : List ReadySessionDoc) (s : ReadySessionDoc),
      (store.map (fun x => x.matchId)).Nodup →
      findSession store matchId = some s →
      findSession (replaceFirstActive matchId s' store) matchId = none := by
  intro store
  induction store with
  | nil => intro s _ h; simp [findSession] at h
  | cons a rest ih =>
      intro s hnd hf
      by_cases hc : a.matchId = matchId ∧ a.status = .active
      · rw [replaceFirstActive, if_pos hc]
        rw [findSession, if_neg (fun hcon => hs' hcon.2)]
        apply findSession_none_of_not_mem
        intro t ht hcon
        have hmem : a.matchId ∈ rest.map (fun x => x.matchId) := by
          rw [hc.1, ← hcon.1]
          exact List.mem_map_of_mem _ ht
        exact (List.nodup_cons.mp (by simpa using hnd)).1 hmem
      · rw [replaceFirstActive, if_neg hc]
        rw [findSession, if_neg hc]
        rw [findSession, if_neg hc] at hf
        exact ih s (List.nodup_cons.mp (by simpa using hnd)).2 hf

/-- C6: deadline-timeout resolution is one-shot.  handleReadyTimeout is a
no-op returning null when no session with the matchId is active (in
particular after the all-accepted fast path flipped the status), running it
twice never fires twice, and processAcceptTimeout changes nothing once the
embedded accept phase is no longer active. -/
theorem c6_timeout_resolution_one_shot :
    (∀ (store : List ReadySessionDoc) (matchId : String),
        (∀ s ∈ store, s.matchId = matchId → s.status ≠ .active) →
        handleReadyTimeout store matchId = (store, none)) ∧
    (∀ (store : List ReadySessionDoc) (matchId : String),
        (store.map (fun s => s.matchId)).Nodup →
        handleReadyTimeout (handleReadyTimeout store matchId).1 matchId =
          ((handleReadyTimeout store matchId).1, none)) ∧
    (∀ (m : MatchDoc) (q : QueueDoc) (users : List UserDoc),
        m.acceptPhase.active = false →
        processAcceptTimeout (some m) q users = (some m, q, users)) := by
  refine ⟨?_, ?_, ?_⟩
  · intro store matchId h
    have hf : findSession store matchId = none :=
      findSession_none_of_not_mem matchId store
        (fun s hs hcon => h s hs hcon.1 hcon.2)
    rw [handleReadyTimeout, hf]
  · intro store matchId hnd
    have hnone : findSession (handleReadyTimeout store matchId).1 matchId = none := by
      cases hf : findSession store matchId with
      | none =>
          have hst : (handleReadyTimeout store matchId).1 = store := by
            rw [handleReadyTimeout, hf]
          rw [hst]
          exact hf
      | some s =>
          have hst : (handleReadyTimeout store matchId).1 =
              replaceFirstActive matchId { s with status := .timeout } store := by
            rw [handleReadyTimeout, hf]
          rw [hst]
          exact findSession_replace_none matchId { s with status := .timeout }
            (by simp) store s hnd hf
    rw [handleReadyTimeout, hnone]
  · intro m q users h
    rw [processAcceptTimeout, if_pos h]

/-- Witness for C6: the timeout handlers no-op on a completed session and an
inactive accept phase. -/
theorem c6_timeout_resolution_one_shot_witness :
    handleReadyTimeout [sessionDoneEx] "PEND-1" = ([sessionDoneEx], none) ∧
    processAcceptTimeout (some mInactiveEx) freshQueue [] =
      (some mInactiveEx, freshQueue, []) :=
  ⟨c6_timeout_resolution_one_shot.1 [sessionDoneEx] "PEND-1" (by decide),
   c6_timeout_resolution_one_shot.2.2 mInactiveEx freshQueue [] (by decide)⟩

lemma setAcceptedFirst_length (userId : String) :
    ∀ players : List RSPlayer,
      (setAcceptedFirst userId players).length = players.length := by
  intro players
  induction players with
  | nil => rfl
  | cons p rest ih =>
      by_cases hp : p.userId = userId <;> simp [setAcceptedFirst, hp, ih]

lemma setAcceptedFirst_count (userId : String) :
    ∀ (players : List RSPlayer) (p : RSPlayer),
      players.find? (fun q => q.userId = userId) = some p →
      p.accepted = false →
      ((setAcceptedFirst userId players).filter (fun q => q.accepted)).length =
        (players.filter (fun q => q.accepted)).length + 1 := by
  intro players
  induction players with
  | nil => intro p h; simp at h
  | cons a rest ih =>
      intro p h hp
      by_cases ha : a.userId = userId
      · rw [List.find?_cons_of_pos _ (by simpa using ha)] at h
        injection h with h
        subst h
        simp [setAcceptedFirst, ha, List.filter_cons, hp]
      · rw [List.find?_cons_of_neg _ (by simpa using ha)] at h
        by_cases hacc : a.accepted
        · simp only [setAcceptedFirst, ha, if_false, List.filter_cons, hacc,
            if_true, List.length_cons]
          rw [ih p h hp]
        · simp only [setAcceptedFirst, ha, if_false, List.filter_cons, hacc,
            Bool.false_eq_true, if_false]
          exact ih p h hp

/-- C3 counterexample: the match-embedded accept path rejects a re-submitted
accept with a thrown error (surfaced to the caller as a 400), even while the
session is active and unexpired — the claim says a duplicate accept is
treated as success with unchanged stats. -/
theorem c3_counterexample :
    mAcceptEx.acceptPhase.active = true ∧
    ¬ (mAcceptEx.acceptPhase.expiresAt < 5) ∧
    mAcceptEx.acceptPhase.requiredPlayers.any (fun p => p.steamId = "p1") = true ∧
    mAcceptEx.acceptPhase.acceptedPlayers.any (fun p => p = "p1") = true ∧
    mAcceptEx.acceptMatch "p1" 5 = .error "Player already accepted" := by
  refine ⟨rfl, by decide, by decide, by decide, by rfl⟩

/-- C3 amended: the ReadySession accept (recordPlayerAccept) fails when no
active session matches, fails for a non-participant, and treats a duplicate
accept as success with unchanged stats and store — but it performs no
expiresAt check at all (a fresh accept succeeds for every expiresAt value);
the match-embedded acceptMatch checks active, expiry (now > expiresAt),
membership, and rejects a duplicate accept with an error; the queue-embedded
acceptMatch likewise rejects a duplicate accept with an error and has no
expiry check. -/
theorem c3_accept_paths_amended :
    (∀ (store : List ReadySessionDoc) (matchId userId : String),
        findSession store matchId = none →
        recordPlayerAccept store matchId userId =
          (store, .error "Session not found or expired")) ∧
    (∀ (store : List ReadySessionDoc) (matchId userId : String) s,
        findSession store matchId = some s →
        s.players.find? (fun p => p.userId = userId) = none →
        recordPlayerAccept store matchId userId =
          (store, .error "User not in session")) ∧
    (∀ (store : List ReadySessionDoc) (matchId userId : String) s p,
        findSession store matchId = some s →
        s.players.find? (fun q => q.userId = userId) = some p →
        p.accepted = true →
        recordPlayerAccept store matchId userId =
          (store, .ok (getSessionStats s))) ∧
    (∀ (store : List ReadySessionDoc) (matchId userId : String) s p,
        findSession store matchId = some s →
        s.players.find? (fun q => q.userId = userId) = some p →
        p.accepted = false →
        ∃ stats, (recordPlayerAccept store matchId userId).2 = .ok stats ∧
          stats.acceptedCount = (getSessionStats s).acceptedCount + 1 ∧
          stats.totalPlayers = s.players.length) ∧
    (∀ (m : MatchDoc) (steamId : String) (now : Nat),
        m.acceptPhase.active = false →
        m.acceptMatch steamId now = .error "Accept phase is not active") ∧
    (∀ (m : MatchDoc) (steamId : String) (now : Nat),
        m.acceptPhase.active = true →
        m.acceptPhase.expiresAt < now →
        m.acceptMatch steamId now = .error "Accept phase has expired") ∧
    (∀ (m : MatchDoc) (steamId : String) (now : Nat),
        m.acceptPhase.active = true →
        ¬ m.acceptPhase.expiresAt < now →
        ¬ m.acceptPhase.requiredPlayers.any (fun p => p.steamId = steamId) →
        m.acceptMatch steamId now = .error "Player is not part of this match") ∧
    (∀ (m : MatchDoc) (steamId : String) (now : Nat),
        m.acceptPhase.active = true →
        ¬ m.acceptPhase.expiresAt < now →
        m.acceptPhase.requiredPlayers.any (fun p => p.steamId = steamId) →
        m.acceptPhase.acceptedPlayers.any (fun p => p = steamId) →
        m.acceptMatch steamId now = .error "Player already accepted") ∧
    (∀ (m : MatchDoc) (steamId : String) (now : Nat) m',
        m.acceptMatch steamId now = .ok m' →
        m'.acceptPhase.acceptedPlayers =
          m.acceptPhase.acceptedPlayers ++ [steamId]) ∧
    (∀ (q : QueueDoc) (steamId : String),
        q.players.any (fun p => p.steamId = steamId) →
        q.acceptPhase.active = true →
        steamId ∈ q.acceptPhase.acceptedPlayers →
        q.acceptMatch steamId = .error "Player already accepted") := by
  refine ⟨?_, ?_, ?_, ?_, ?_, ?_, ?_, ?_, ?_, ?_⟩
  · intro store matchId userId h
    rw [recordPlayerAccept, h]
  · intro store matchId userId s h1 h2
    simp only [recordPlayerAccept, h1, h2]
  · intro store matchId userId s p h1 h2 h3
    simp [recordPlayerAccept, h1, h2, h3]
  · intro store matchId userId s p h1 h2 h3
    refine ⟨getSessionStats
      { s with players := setAcceptedFirst userId s.players }, ?_, ?_, ?_⟩
    · simp [recordPlayerAccept, h1, h2, h3]
    · show ((setAcceptedFirst userId s.players).filter (fun q => q.accepted)).length
        = (s.players.filter (fun q => q.accepted)).length + 1
      exact setAcceptedFirst_count userId s.players p h2 h3
    · show (setAcceptedFirst userId s.players).length = s.players.length
      exact setAcceptedFirst_length userId s.players
  · intro m steamId now h
    rw [MatchDoc.acceptMatch, if_pos h]
  · intro m steamId now h1 h2
    rw [MatchDoc.acceptMatch, if_neg (by simp [h1]), if_pos h2]
  · intro m steamId now h1 h2 h3
    rw [MatchDoc.acceptMatch, if_neg (by simp [h1]), if_neg h2, if_pos h3]
  · intro m steamId now h1 h2 h3 h4
    rw [MatchDoc.acceptMatch, if_neg (by simp [h1]), if_neg h2,
      if_neg (by simpa using h3), if_pos h4]
  · intro m steamId now m' h
    rw [MatchDoc.acceptMatch] at h
    split at h
    · exact Except.noConfusion h
    · split at h
      · exact Except.noConfusion h
      · split at h
        · exact Except.noConfusion h
        · split at h
          · exact Except.noConfusion h
          · injection h with h
            subst h
            rfl
  · intro q steamId h1 h2 h3
    rw [QueueDoc.acceptMatch, if_neg (by simpa using h1),
      if_neg (by simp [h2]), if_pos h3]

/-- Witness for C3 (amended): a duplicate ReadySession accept succeeds with
unchanged stats, and an expired match-embedded accept fails. -/
theorem c3_accept_paths_amended_witness :
    recordPlayerAccept [sessionLiveEx] "PEND-2" "u1" =
      ([sessionLiveEx], .ok (getSessionStats sessionLiveEx)) ∧
    mAcceptEx.acceptMatch "p2" 200 = .error "Accept phase has expired" :=
  ⟨c3_accept_paths_amended.2.2.1 [sessionLiveEx] "PEND-2" "u1" sessionLiveEx
      { userId := "u1", accepted := true } (by decide) (by decide) rfl,
   c3_accept_paths_amended.2.2.2.2.2.1 mAcceptEx "p2" 200 rfl (by decide)⟩

/-- C5 at the failing input: completing mLiveEx with winner alpha saves the
match as complete, but because teams.alpha/.beta hold plain steamId strings
the controller maps p.steamId over them and gets undefined throughout — the
updateMany filters match no user (so no win is recorded for any alpha player,
no loss for any beta player, no matchesPlayed increment, and no currentMatch
is cleared), while each findOne({steamId: undefined}) drops the undefined
filter and repeatedly updates the first stored user, who absorbs five wins
and then five losses.  A draw cannot be recorded at all: winner tie fails the
result.winner enum validation at save(), the controller answers 500, and no
player update runs. -/
theorem c5_complete_match_stats_bug :
    completeMatchController mLiveEx .alpha 16 9 usersLiveEx =
      .ok ({ mLiveEx with
              phase := .complete
              result := { winner := some .alpha, scoreAlpha := 16, scoreBeta := 9 } },
           [{ mkLiveUser "a1" "A1" with wins := 5, losses := 5, rating := 0
                                        matchesPlayed := 10 },
            mkLiveUser "a2" "A2", mkLiveUser "a3" "A3", mkLiveUser "a4" "A4",
            mkLiveUser "a5" "A5", mkLiveUser "b1" "B1", mkLiveUser "b2" "B2",
            mkLiveUser "b3" "B3", mkLiveUser "b4" "B4", mkLiveUser "b5" "B5"]) ∧
    completeMatchController mLiveEx .tie 12 12 usersLiveEx =
      .error "Match validation failed: result.winner is not a valid enum value" := by
  refine ⟨by rfl, by rfl⟩

lemma map_steamId_filter (P : String → Bool) :
    ∀ l : List QEntry,
      (l.filter (fun e => P e.steamId)).map QEntry.steamId =
        (l.map QEntry.steamId).filter P := by
  intro l
  induction l with
  | nil => rfl
  | cons a rest ih =>
      by_cases ha : P a.steamId <;>
        simp [List.filter_cons, ha, ih]

lemma reindex_map_fields (l : List QEntry) :
    (reindex l).map (fun e => (e.steamId, e.hasPriority)) =
      l.map (fun e => (e.steamId, e.hasPriority)) :=
  reindexFrom_map_fields l 0

lemma reindex_map_steamId (l : List QEntry) :
    (reindex l).map QEntry.steamId = l.map QEntry.steamId := by
  have h := congrArg (List.map Prod.fst) (reindex_map_fields l)
  simpa [List.map_map, Function.comp] using h

lemma addAcceptorsLoop_append :
    ∀ (acceptors : List RequiredPlayer) (q : QueueDoc) (users : List UserDoc),
      (acceptors.map RequiredPlayer.steamId).Nodup →
      (∀ a ∈ acceptors, ∀ p ∈ q.players, p.steamId ≠ a.steamId) →
      q.players.length + acceptors.length ≤ q.requiredPlayers →
      (addAcceptorsLoop q users acceptors).1.players.map
          (fun e => (e.steamId, e.hasPriority)) =
        q.players.map (fun e => (e.steamId, e.hasPriority)) ++
        acceptors.map (fun a => (a.steamId, false)) := by
  intro acceptors
  induction acceptors with
  | nil => intro q users _ _ _; simp [addAcceptorsLoop]
  | cons a rest ih =>
      intro q users hnd hfresh hcap
      have hnotin : ¬ (q.players.any (fun p => p.steamId = a.steamId) = true) := by
        simp only [List.any_eq_true, not_exists, not_and]
        intro p hp
        simpa using hfresh a (List.mem_cons_self _ _) p hp
      have hnotfull : ¬ q.requiredPlayers ≤ q.players.length := by
        simp only [List.length_cons] at hcap
        omega
      have haddp : q.addPlayer { steamId := a.steamId, name := a.name, avatar := "" } =
          .ok { q with
            players := q.players ++
              [({ steamId := a.steamId, name := a.name, avatar := ""
                  position := q.players.length + 1, hasPriority := false } : QEntry)]
            status :=
              if (q.players ++
                  [({ steamId := a.steamId, name := a.name, avatar := ""
                      position := q.players.length + 1, hasPriority := false } : QEntry)]).length
                = q.requiredPlayers then .full else q.status } := by
        unfold QueueDoc.addPlayer
        rw [if_neg hnotin, if_neg hnotfull]
      rw [addAcceptorsLoop, if_neg hnotin, haddp]
      rw [ih _ _ (by simpa using (List.nodup_cons.mp (by simpa using hnd)).2) ?hfresh ?hcap]
      · simp
      case hfresh =>
        intro a2 ha2 p hp
        rcases List.mem_append.mp hp with hp1 | hp2
        · exact hfresh a2 (List.mem_cons_of_mem a ha2) p hp1
        · have hpe : p.steamId = a.steamId := by
            rcases List.mem_singleton.mp hp2 with rfl
            rfl
          rw [hpe]
          have hna : a.steamId ∉ rest.map RequiredPlayer.steamId :=
            (List.nodup_cons.mp (by simpa using hnd)).1
          exact fun e => hna (e ▸ List.mem_map_of_mem RequiredPlayer.steamId ha2)
      case hcap =>
        simp only [List.length_append, List.length_cons, List.length_nil]
        simp only [List.length_cons] at hcap
        omega

lemma addAcceptorsLoop_users_invariant (P : UserDoc → Prop)
    (hP : ∀ u, P u → P { u with inQueue := true, currentMatch := none }) :
    ∀ (acceptors : List RequiredPlayer) (q : QueueDoc) (users : List UserDoc),
      (∀ u ∈ users, P u) →
      ∀ u ∈ (addAcceptorsLoop q users acceptors).2, P u := by
  intro acceptors
  induction acceptors with
  | nil =>
      intro q users h u hu
      rw [addAcceptorsLoop] at hu
      exact h u hu
  | cons a rest ih =>
      intro q users h u hu
      rw [addAcceptorsLoop] at hu
      by_cases hin : (q.players.any (fun p => p.steamId = a.steamId)) = true
      · rw [if_pos hin] at hu
        exact ih q users h u hu
      · rw [if_neg hin] at hu
        cases hadd : q.addPlayer { steamId := a.steamId, name := a.name, avatar := "" } with
        | ok q1 =>
            rw [hadd] at hu
            refine ih q1 _ ?_ u hu
            intro v hv
            rcases List.mem_map.mp hv with ⟨v0, hv0, rfl⟩
            by_cases hv0id : v0.steamId = a.steamId
            · rw [if_pos hv0id]
              exact hP v0 (h v0 hv0)
            · rw [if_neg hv0id]
              exact h v0 hv0
        | error e =>
            rw [hadd] at hu
            exact h u hu

lemma replaceFirstActive_mem (matchId : String) (updated : ReadySessionDoc) :
    ∀ (store : List ReadySessionDoc) (s : ReadySessionDoc),
      findSession store matchId = some s →
      updated ∈ replaceFirstActive matchId updated store := by
  intro store
  induction store with
  | nil => intro s h; simp [findSession] at h
  | cons a rest ih =>
      intro s h
      by_cases hc : a.matchId = matchId ∧ a.status = .active
      · rw [replaceFirstActive, if_pos hc]
        exact List.mem_cons_self _ _
      · rw [replaceFirstActive, if_neg hc]
        rw [findSession, if_neg hc] at h
        exact List.mem_cons_of_mem a (ih s h)

/-- C4 counterexample: after the accept deadline of mTimeoutEx elapses with
a single acceptor a, processAcceptTimeout re-adds a at the BACK of the queue
(position 2, behind the pre-existing non-priority player z) with
hasPriority = false — addPlayer ignores its second argument, so the claimed
priority re-insertion does not happen on this code path. -/
theorem c4_counterexample :
    ((processAcceptTimeout (some mTimeoutEx) qTimeoutEx usersTimeoutEx).2.1.players.map
        (fun e => (e.steamId, e.hasPriority, e.position))) =
      [("z", false, 1), ("a", false, 2)] := by
  rfl

lemma rebuild_players_fields (q : QueueDoc) (acceptors nonAcceptors : List String) :
    (rebuildQueueOnTimeout q acceptors nonAcceptors).1.players.map
        (fun e => (e.steamId, e.hasPriority)) =
      List.map (fun (e : QEntry) => (e.steamId, e.hasPriority))
        (List.map (fun (p : QEntry) => { p with hasPriority := true })
          (List.filter (fun (p : QEntry) =>
            decide (p.steamId ∈ acceptors ++ nonAcceptors ∧ p.steamId ∈ acceptors))
            q.players) ++
         List.filter (fun (p : QEntry) =>
            decide (p.steamId ∉ acceptors ++ nonAcceptors)) q.players) :=
  reindex_map_fields _

lemma rebuild_filter_acceptors (q : QueueDoc) (acceptors nonAcceptors : List String) :
    q.players.filter (fun (p : QEntry) =>
        decide (p.steamId ∈ acceptors ++ nonAcceptors ∧ p.steamId ∈ acceptors)) =
      q.players.filter (fun (p : QEntry) => decide (p.steamId ∈ acceptors)) := by
  apply List.filter_congr
  intro p _
  by_cases hp : p.steamId ∈ acceptors
  · simp [hp, List.mem_append_left nonAcceptors hp]
  · simp [hp]

lemma rebuild_players_steamIds (q : QueueDoc) (acceptors nonAcceptors : List String) :
    (rebuildQueueOnTimeout q acceptors nonAcceptors).1.players.map QEntry.steamId =
      (q.players.map QEntry.steamId).filter (fun s => decide (s ∈ acceptors)) ++
      (q.players.map QEntry.steamId).filter
        (fun s => decide (s ∉ acceptors ++ nonAcceptors)) := by
  show (reindex _).map QEntry.steamId = _
  rw [reindex_map_steamId, List.map_append]
  congr 1
  · rw [List.map_map]
    rw [show (QEntry.steamId ∘ fun p => { p with hasPriority := true })
        = QEntry.steamId from rfl]
    rw [rebuild_filter_acceptors q acceptors nonAcceptors]
    exact map_steamId_filter (fun s => decide (s ∈ acceptors)) q.players
  · exact map_steamId_filter
      (fun s => decide (s ∉ acceptors ++ nonAcceptors)) q.players

/-- C4 amended: on the ReadySession path, the deadline handler marks the
session timeout and partitions the roster, and the queue rebuild keeps the
acceptors first with hasPriority = true, drops non-acceptors (whose users get
inQueue = false) and keeps contiguous positions.  On the match-embedded
processAcceptTimeout path, the match is cancelled and every required player's
currentMatch cleared, but acceptors are appended to the BACK of the active
queue with hasPriority = false — addPlayer has no priority parameter. -/
theorem c4_timeout_requeue_amended :
    (∀ (q : QueueDoc) (acceptors nonAcceptors : List String) (users : List UserDoc),
        (∀ s ∈ acceptors, s ∉ nonAcceptors) →
        (∀ e ∈ (readyTimeoutQueueRebuild q acceptors nonAcceptors users).1.players,
            e.steamId ∈ acceptors ++ nonAcceptors →
            e.steamId ∈ acceptors ∧ e.hasPriority = true) ∧
        ((readyTimeoutQueueRebuild q acceptors nonAcceptors users).1.players.map
            QEntry.steamId =
          (q.players.map QEntry.steamId).filter (fun s => s ∈ acceptors) ++
          (q.players.map QEntry.steamId).filter
            (fun s => s ∉ acceptors ++ nonAcceptors)) ∧
        (∀ u ∈ (readyTimeoutQueueRebuild q acceptors nonAcceptors users).2,
            u.steamId ∈ nonAcceptors → u.steamId ∉ acceptors → u.inQueue = false) ∧
        positionsOK (readyTimeoutQueueRebuild q acceptors nonAcceptors users).1.players) ∧
    (∀ (store : List ReadySessionDoc) (matchId : String) store1 res,
        handleReadyTimeout store matchId = (store1, some res) →
        ∃ s, findSession store matchId = some s ∧
          ({ s with status := RSStatus.timeout } : ReadySessionDoc) ∈ store1 ∧
          res.acceptors = (s.players.filter (fun p => p.accepted)).map RSPlayer.userId ∧
          res.nonAcceptors =
            (s.players.filter (fun p => !p.accepted)).map RSPlayer.userId) ∧
    (∀ (m : MatchDoc) (q : QueueDoc) (users : List UserDoc),
        m.acceptPhase.active = true →
        m.allPlayersAccepted = false →
        ((m.acceptPhase.requiredPlayers.filter
            (fun p => p.steamId ∈ m.acceptPhase.acceptedPlayers)).map
            RequiredPlayer.steamId).Nodup →
        (∀ a ∈ m.acceptPhase.requiredPlayers.filter
            (fun p => p.steamId ∈ m.acceptPhase.acceptedPlayers),
          ∀ p ∈ q.players, p.steamId ≠ a.steamId) →
        q.players.length + (m.acceptPhase.requiredPlayers.filter
            (fun p => p.steamId ∈ m.acceptPhase.acceptedPlayers)).length ≤
          q.requiredPlayers →
        (processAcceptTimeout (some m) q users).1 = some m.endAcceptPhase ∧
        m.endAcceptPhase.phase = .cancelled ∧
        ((processAcceptTimeout (some m) q users).2.1.players.map
            (fun e => (e.steamId, e.hasPriority)) =
          q.players.map (fun e => (e.steamId, e.hasPriority)) ++
          (m.acceptPhase.requiredPlayers.filter
            (fun p => p.steamId ∈ m.acceptPhase.acceptedPlayers)).map
            (fun a => (a.steamId, false))) ∧
        (∀ u ∈ (processAcceptTimeout (some m) q users).2.2,
          u.steamId ∈ m.acceptPhase.requiredPlayers.map RequiredPlayer.steamId →
          u.currentMatch = none)) := by
  refine ⟨?_, ?_, ?_⟩
  · intro q acceptors nonAcceptors users hdisj
    refine ⟨?_, ?_, ?_, ?_⟩
    · intro e he hsess
      have h1 := List.mem_map_of_mem (fun e => (e.steamId, e.hasPriority)) he
      rw [show (readyTimeoutQueueRebuild q acceptors nonAcceptors users).1.players
          = (rebuildQueueOnTimeout q acceptors nonAcceptors).1.players from rfl] at h1
      rw [rebuild_players_fields q acceptors nonAcceptors] at h1
      rcases List.mem_map.mp h1 with ⟨e0, he0, hpe⟩
      have hid : e0.steamId = e.steamId := congrArg Prod.fst hpe
      have hprio : e0.hasPriority = e.hasPriority := congrArg Prod.snd hpe
      rcases List.mem_append.mp he0 with h0 | h0
      · rcases List.mem_map.mp h0 with ⟨x, hx, hxe⟩
        have hcond := (List.mem_filter.mp hx).2
        simp only [decide_eq_true_eq] at hcond
        have hxid : x.steamId = e0.steamId := by rw [← hxe]
        refine ⟨?_, ?_⟩
        · rw [← hid, ← hxid]
          exact hcond.2
        · rw [← hprio, ← hxe]
      · have hcond := (List.mem_filter.mp h0).2
        simp only [decide_eq_true_eq] at hcond
        rw [hid] at hcond
        exact absurd hsess hcond
    · exact rebuild_players_steamIds q acceptors nonAcceptors
    · intro u hu hnon hnacc
      rcases List.mem_map.mp hu with ⟨u0, hu0, rfl⟩
      by_cases hrem : u0.steamId ∈ (rebuildQueueOnTimeout q acceptors nonAcceptors).2
      · rw [if_pos hrem]
      · rw [if_neg hrem] at hnon hnacc
        exfalso
        apply hrem
        show u0.steamId ∈ (acceptors ++ nonAcceptors).filter
          (fun id => decide (id ∉ acceptors))
        rw [List.mem_filter]
        exact ⟨List.mem_append_right acceptors hnon, by simpa using hnacc⟩
    · exact reindex_positionsOK _
  · intro store matchId store1 res h
    cases hf : findSession store matchId with
    | none =>
        rw [handleReadyTimeout, hf] at h
        exact absurd (congrArg Prod.snd h) (by simp)
    | some s =>
        rw [handleReadyTimeout, hf] at h
        have hstore := congrArg Prod.fst h
        have hres := congrArg Prod.snd h
        simp only [] at hstore hres
        refine ⟨s, rfl, ?_, ?_, ?_⟩
        · rw [← hstore]
          exact replaceFirstActive_mem matchId _ store s hf
        · rw [← Option.some_inj.mp hres]
        · rw [← Option.some_inj.mp hres]
  · intro m q users hactive hnotall hnd hfresh hcap
    have hu1 : (processAcceptTimeout (some m) q users) =
        (some m.endAcceptPhase,
         (addAcceptorsLoop q
            (users.map (fun u =>
              if m.acceptPhase.requiredPlayers.any (fun p => p.steamId = u.steamId) then
                { u with currentMatch := none }
              else u))
            (m.acceptPhase.requiredPlayers.filter
              (fun p => p.steamId ∈ m.acceptPhase.acceptedPlayers))).1,
         (addAcceptorsLoop q
            (users.map (fun u =>
              if m.acceptPhase.requiredPlayers.any (fun p => p.steamId = u.steamId) then
                { u with currentMatch := none }
              else u))
            (m.acceptPhase.requiredPlayers.filter
              (fun p => p.steamId ∈ m.acceptPhase.acceptedPlayers))).2) := by
      rw [processAcceptTimeout, if_neg (by simp [hactive]), if_neg (by simp [hnotall])]
    refine ⟨?_, ?_, ?_, ?_⟩
    · rw [hu1]
    · rw [MatchDoc.endAcceptPhase]
      simp [hnotall]
    · rw [hu1]
      exact addAcceptorsLoop_append _ q _ hnd hfresh hcap
    · rw [hu1]
      intro u hu hreq
      refine addAcceptorsLoop_users_invariant
        (fun v => v.steamId ∈ m.acceptPhase.requiredPlayers.map RequiredPlayer.steamId →
          v.currentMatch = none)
        (fun v _ _ => rfl) _ q _ ?_ u hu hreq
      intro v hv hvreq
      rcases List.mem_map.mp hv with ⟨v0, hv0, rfl⟩
      by_cases hcond : (m.acceptPhase.requiredPlayers.any
          (fun p => p.steamId = v0.steamId)) = true
      · rw [if_pos hcond]
      · rw [if_neg hcond] at hvreq
        exfalso
        apply hcond
        rw [List.any_eq_true]
        rcases List.mem_map.mp hvreq with ⟨p0, hp0, hpe⟩
        exact ⟨p0, hp0, by simpa using hpe⟩

/-- Witness for C4 (amended): the two requeue paths at concrete inputs. -/
theorem c4_timeout_requeue_amended_witness :
    ((readyTimeoutQueueRebuild qRebEx ["c"] ["a"] usersTimeoutEx).1.players.map
        QEntry.steamId =
      (qRebEx.players.map QEntry.steamId).filter (fun s => s ∈ ["c"]) ++
      (qRebEx.players.map QEntry.steamId).filter (fun s => s ∉ ["c"] ++ ["a"])) ∧
    ((processAcceptTimeout (some mTimeoutEx) qTimeoutEx usersTimeoutEx).2.1.players.map
        (fun e => (e.steamId, e.hasPriority)) =
      qTimeoutEx.players.map (fun e => (e.steamId, e.hasPriority)) ++
      (mTimeoutEx.acceptPhase.requiredPlayers.filter
        (fun p => p.steamId ∈ mTimeoutEx.acceptPhase.acceptedPlayers)).map
        (fun a => (a.steamId, false))) :=
  ⟨(c4_timeout_requeue_amended.1 qRebEx ["c"] ["a"] usersTimeoutEx (by decide)).2.1,
   (c4_timeout_requeue_amended.2.2 mTimeoutEx qTimeoutEx usersTimeoutEx rfl
      (by decide) (by decide) (by decide) (by decide)).2.2.1⟩
